import Mathlib

/-!
Verification development for the pipeline runtime-filter components of
`be/src/exec/pipeline/runtime_filter_types.h`:

* `RuntimeFilterCollector` and its in-filter slot-id rewriting,
* `RuntimeFilterHolder` (publish-once cell) and `RuntimeFilterHub`,
* `RefCountedRuntimeFilterProbeCollector` (split 64-bit refcount),
* `PartialRuntimeFilterMerger` (rendezvous plus in-filter/bloom-filter merge).

The embedding is shallow: the C++ classes become structures, member functions
become pure functions on those structures, `std::atomic` counters become plain
fields updated with explicit modular arithmetic (single-location atomics are
coherent, so a sequential trace models every interleaving of operations on
one cell or counter), and `Status` / `StatusOr<T>` become `Except String Unit`
/ `Except String T`.  Opaque collaborators that live outside the staged
sources (`Predicate::merge`, `RuntimeFilterHelper`) are modelled from the
spec, as marked on each such definition.
-/

namespace StarRocks

/-- An in-filter expression context (`RuntimeInFilter = ExprContext`): an
IN-predicate over a single column reference.  `tuple_id`/`slot_id` are the
column reference's coordinates (`ColumnRef::tuple_id/slot_id`), `keys` the
IN-set.  `merge_fails` injects the opaque failure mode of `Predicate::merge`
(semantic or memory failure of the collaborator). -/
structure InFilterPred where
  tuple_id : Int
  slot_id : Int
  keys : List Int
  merge_fails : Bool
  deriving DecidableEq, Repr

/-- `Expr::is_bound(tuple_ids)` for an IN-predicate rooted at one column
reference: the reference's tuple id lies in the given tuple-id set. -/
def InFilterPred.is_bound (p : InFilterPred) (tuple_ids : List Int) : Bool :=
  tuple_ids.contains p.tuple_id

/-- The pure union underlying `Predicate::merge`: the left predicate absorbs
the right one's keys (hash-set insertion, so duplicates are not re-added). -/
def InFilterPred.union (a b : InFilterPred) : InFilterPred :=
  { a with keys := a.keys ++ b.keys.filter (fun k => decide (k ∉ a.keys)) }

/-- Modelled from the spec: `Predicate::merge(other)` "unions the IN-set" and
may fail ("semantic or memory" failure, injected by `merge_fails`); the code
of the predicate class is not among the staged sources. -/
def InFilterPred.merge (a b : InFilterPred) : Except String InFilterPred :=
  if a.merge_fails || b.merge_fails then .error "merge failed"
  else .ok (a.union b)

/-- `TupleSlotMapping`: how a descendant's `(from_tuple_id, from_slot_id)`
column appears as `(to_tuple_id, to_slot_id)` in an ancestor's schema. -/
structure TupleSlotMapping where
  from_tuple_id : Int
  from_slot_id : Int
  to_tuple_id : Int
  to_slot_id : Int
  deriving DecidableEq, Repr

/-- One pass of the inner loop of `RuntimeFilterCollector::rewrite_in_filters`
for a single mapping and a single in-filter: if the filter is bound to the
mapping's `to_tuple_id` and its column reference carries `to_slot_id`, rebind
the reference to `(from_tuple_id, from_slot_id)`. -/
def applyMapping (m : TupleSlotMapping) (p : InFilterPred) : InFilterPred :=
  if p.is_bound [m.to_tuple_id] && (p.slot_id == m.to_slot_id) then
    { p with slot_id := m.from_slot_id, tuple_id := m.from_tuple_id }
  else p

/-- Modelled from the spec: the bloom filter object handed out by
`RuntimeFilterHelper::create_runtime_bloom_filter` with its `init`,
`set_join_mode` and fill operations (the helper is not among the staged
sources; the bit layout is an opaque collaborator). -/
structure JoinRuntimeFilter where
  build_type : Int
  bloom_row_count : Nat
  join_mode : Int
  filled : List (List Int × Bool)
  deriving DecidableEq, Repr

/-- `JoinRuntimeFilter::init(row_count)`. -/
def JoinRuntimeFilter.init (f : JoinRuntimeFilter) (row_count : Nat) : JoinRuntimeFilter :=
  { f with bloom_row_count := row_count }

/-- `JoinRuntimeFilter::set_join_mode(mode)`. -/
def JoinRuntimeFilter.set_join_mode (f : JoinRuntimeFilter) (mode : Int) : JoinRuntimeFilter :=
  { f with join_mode := mode }

/-- A build-side key column (`ColumnPtr`).  `fill_fails` injects the opaque
failure mode of `RuntimeFilterHelper::fill_runtime_bloom_filter`. -/
structure ColumnData where
  values : List Int
  fill_fails : Bool
  deriving DecidableEq, Repr

/-- Modelled from the spec: `RuntimeFilterHelper::create_runtime_bloom_filter
(pool, build_type)` constructs a fresh filter for the build type (the object
pool is bookkeeping only and is dropped from the model). -/
def create_runtime_bloom_filter (build_type : Int) : Option JoinRuntimeFilter :=
  some { build_type := build_type, bloom_row_count := 0, join_mode := 0, filled := [] }

/-- Modelled from the spec: `RuntimeFilterHelper::fill_runtime_bloom_filter`
inserts the column under the NULL-equality flag and may fail, in which case
the caller nulls the descriptor's filter. -/
def fill_runtime_bloom_filter (column : ColumnData) (f : JoinRuntimeFilter)
    (eq_null : Bool) : Except String JoinRuntimeFilter :=
  if column.fill_fails then .error "fill failed"
  else .ok { f with filled := f.filled ++ [(column.values, eq_null)] }

/-- `RuntimeBloomFilter = RuntimeFilterBuildDescriptor`: build specification
carrying consumer/remote flags, build type, join mode, the pipeline mark and
the mutable slot for the constructed filter. -/
structure RuntimeFilterBuildDescriptor where
  has_consumer : Bool
  has_remote_targets : Bool
  build_expr_type : Int
  join_mode : Int
  is_pipeline : Bool
  runtime_filter : Option JoinRuntimeFilter
  deriving DecidableEq, Repr

/-- `RuntimeBloomFilterBuildParam`. -/
structure RuntimeBloomFilterBuildParam where
  eq_null : Bool
  column : Option ColumnData
  ht_row_count : Nat
  deriving DecidableEq, Repr

/-- `RuntimeFilterCollector`: the in-filter list and the bloom-filter
descriptor list. -/
structure RuntimeFilterCollector where
  in_filters : List InFilterPred
  bloom_filters : List RuntimeFilterBuildDescriptor
  deriving DecidableEq, Repr

/-- `RuntimeFilterCollector::rewrite_in_filters(mappings)`: the outer loop
walks the mappings in order and updates every in-filter in place. -/
def RuntimeFilterCollector.rewrite_in_filters (c : RuntimeFilterCollector)
    (mappings : List TupleSlotMapping) : RuntimeFilterCollector :=
  { c with in_filters := mappings.foldl (fun fs m => fs.map (applyMapping m)) c.in_filters }

/-- `RuntimeFilterCollector::get_in_filters_bounded_by_tuple_ids(ids)`. -/
def RuntimeFilterCollector.get_in_filters_bounded_by_tuple_ids
    (c : RuntimeFilterCollector) (tuple_ids : List Int) : List InFilterPred :=
  c.in_filters.filter (fun f => f.is_bound tuple_ids)

/-- The per-predicate effect of one full pass over the mapping list. -/
def rewriteOnePass (mappings : List TupleSlotMapping) (p : InFilterPred) : InFilterPred :=
  mappings.foldl (fun q m => applyMapping m q) p

/-- `RuntimeFilterHolder`: the publish-once cell.  The atomic pointer with
release/acquire ordering on a single location is coherent, so its value
history is modelled by a plain optional field updated sequentially. -/
structure RuntimeFilterHolder where
  collector : Option RuntimeFilterCollector
  deriving DecidableEq, Repr

/-- `RuntimeFilterHolder::set_collector`: takes ownership and publishes. -/
def RuntimeFilterHolder.set_collector (_h : RuntimeFilterHolder)
    (c : RuntimeFilterCollector) : RuntimeFilterHolder :=
  { collector := some c }

/-- `RuntimeFilterHolder::get_collector` (acquire load). -/
def RuntimeFilterHolder.get_collector (h : RuntimeFilterHolder) :
    Option RuntimeFilterCollector :=
  h.collector

/-- `RuntimeFilterHolder::is_ready`. -/
def RuntimeFilterHolder.is_ready (h : RuntimeFilterHolder) : Bool :=
  h.get_collector.isSome

/-- One operation of a trace over a holder: the producer's publication or a
consumer's observation. -/
inductive HolderOp where
  | setOp (c : RuntimeFilterCollector)
  | getOp
  deriving DecidableEq, Repr

/-- The observations (`get_collector` results) a trace of operations yields,
starting from `h`. -/
def holderObservations : RuntimeFilterHolder → List HolderOp → List (Option RuntimeFilterCollector)
  | _, [] => []
  | h, HolderOp.setOp c :: ops => holderObservations (h.set_collector c) ops
  | h, HolderOp.getOp :: ops => h.get_collector :: holderObservations h ops

/-- The collectors a trace installs, in order. -/
def installedCollectors (ops : List HolderOp) : List RuntimeFilterCollector :=
  ops.filterMap (fun op => match op with
    | HolderOp.setOp c => some c
    | HolderOp.getOp => none)

/-- The number of observations a trace makes. -/
def numGets : List HolderOp → Nat
  | [] => 0
  | HolderOp.setOp _ :: ops => numGets ops
  | HolderOp.getOp :: ops => numGets ops + 1

/-- `RuntimeFilterHub`: the per-plan-node registry of holders, an association
list standing for the `unordered_map` (keys installed once, never removed). -/
structure RuntimeFilterHub where
  holders : List (Int × RuntimeFilterHolder)
  deriving DecidableEq, Repr

/-- `RuntimeFilterHub::get_holder(id)` (`find`; the source `DCHECK`s the key
is present, so absence surfaces as `none`). -/
def RuntimeFilterHub.get_holder (hub : RuntimeFilterHub) (id : Int) :
    Option RuntimeFilterHolder :=
  hub.holders.lookup id

/-- `RuntimeFilterHub::add_holder(id)`: `emplace` inserts a fresh holder only
when the key is not already present (no-op on an existing key). -/
def RuntimeFilterHub.add_holder (hub : RuntimeFilterHub) (id : Int) : RuntimeFilterHub :=
  match hub.holders.lookup id with
  | some _ => hub
  | none => { holders := hub.holders ++ [(id, { collector := none })] }

/-- `RuntimeFilterHub::gather_holders(ids)`. -/
def RuntimeFilterHub.gather_holders (hub : RuntimeFilterHub) (ids : List Int) :
    List (Option RuntimeFilterHolder) :=
  ids.map hub.get_holder

/-- `RuntimeFilterHub::set_collector(id, c)`. -/
def RuntimeFilterHub.set_collector (hub : RuntimeFilterHub) (id : Int)
    (c : RuntimeFilterCollector) : RuntimeFilterHub :=
  { holders := hub.holders.map (fun kv =>
      if kv.1 == id then (kv.1, kv.2.set_collector c) else kv) }

/-- `size_t` arithmetic is modular in `2 ^ 64`. -/
def sizeTMod : Nat := 2 ^ 64

/-- `RefCountedRuntimeFilterProbeCollector`: one 64-bit counter whose low 32
bits count remaining `close` calls and whose high 32 bits count remaining
`prepare` calls.  The wrapped `RuntimeFilterProbeCollector` is an opaque
collaborator; `wrapped_prepare_runs` / `wrapped_close_runs` count how many
times its `prepare`+`open` respectively `close` were invoked. -/
structure RefCountedRuntimeFilterProbeCollector where
  count : Nat
  num_operators_generated : Nat
  wrapped_prepare_runs : Nat
  wrapped_close_runs : Nat
  deriving DecidableEq, Repr

namespace RefCountedRuntimeFilterProbeCollector

/-- The constructor: `_count((num_operators_generated << 32) |
num_operators_generated)`. -/
def construct (n : Nat) : RefCountedRuntimeFilterProbeCollector :=
  { count := ((n <<< 32) ||| n) % sizeTMod
    num_operators_generated := n
    wrapped_prepare_runs := 0
    wrapped_close_runs := 0 }

/-- `prepare`: `fetch_sub(1)`; when the pre-decrement low 32 bits equal
`_num_operators_generated` (first prepare) run the wrapped collector's
`prepare` then `open` (modelled from the spec: the wrapped collector is
opaque; only the invocation is recorded). -/
def prepare (s : RefCountedRuntimeFilterProbeCollector) :
    RefCountedRuntimeFilterProbeCollector :=
  let pre := s.count
  let s' := { s with count := (pre + (sizeTMod - 1)) % sizeTMod }
  if pre &&& 0xffffffff = s.num_operators_generated then
    { s' with wrapped_prepare_runs := s'.wrapped_prepare_runs + 1 }
  else s'

/-- `close`: `fetch_sub(1 << 32)`; when the pre-decrement value equals
exactly `1 << 32` run the wrapped collector's `close`. -/
def close (s : RefCountedRuntimeFilterProbeCollector) :
    RefCountedRuntimeFilterProbeCollector :=
  let pre := s.count
  let s' := { s with count := (pre + (sizeTMod - (1 <<< 32))) % sizeTMod }
  if pre = 1 <<< 32 then
    { s' with wrapped_close_runs := s'.wrapped_close_runs + 1 }
  else s'

end RefCountedRuntimeFilterProbeCollector

/-- A call on the shared probe collector made by one sibling operator. -/
inductive ProbeEvent where
  | prepareCall
  | closeCall
  deriving DecidableEq, Repr

/-- Apply one call. -/
def probeStep (s : RefCountedRuntimeFilterProbeCollector) :
    ProbeEvent → RefCountedRuntimeFilterProbeCollector
  | ProbeEvent.prepareCall => s.prepare
  | ProbeEvent.closeCall => s.close

/-- Run a whole interleaving of prepare/close calls. -/
def probeRun (s : RefCountedRuntimeFilterProbeCollector) (evs : List ProbeEvent) :
    RefCountedRuntimeFilterProbeCollector :=
  evs.foldl probeStep s

/-- The number of `prepare` calls in an interleaving. -/
def numPrepares : List ProbeEvent → Nat
  | [] => 0
  | ProbeEvent.prepareCall :: evs => numPrepares evs + 1
  | ProbeEvent.closeCall :: evs => numPrepares evs

/-- The number of `close` calls in an interleaving. -/
def numCloses : List ProbeEvent → Nat
  | [] => 0
  | ProbeEvent.prepareCall :: evs => numCloses evs
  | ProbeEvent.closeCall :: evs => numCloses evs + 1

/-- `PartialRuntimeFilterMerger`: per-builder slots plus the active-builder
counter.  The object pool is bookkeeping only and is dropped. -/
structure PartialRuntimeFilterMerger where
  limit : Nat
  num_active_builders : Nat
  ht_row_counts : List Nat
  partial_in_filters : List (List (Option InFilterPred))
  partial_bloom_filter_build_params : List (List RuntimeBloomFilterBuildParam)
  bloom_filter_descriptors : List RuntimeFilterBuildDescriptor
  deriving DecidableEq, Repr

/-- The arguments of one `add_partial_filters` call. -/
structure PartialFilterArgs where
  idx : Nat
  ht_row_count : Nat
  in_filters : List (Option InFilterPred)
  bloom_filter_build_params : List RuntimeBloomFilterBuildParam
  bloom_filter_descriptors : List RuntimeFilterBuildDescriptor
  deriving DecidableEq, Repr

namespace PartialRuntimeFilterMerger

/-- The constructor `PartialRuntimeFilterMerger(pool, limit, num_builders)`:
all per-builder slots reserved beforehand. -/
def construct (limit num_builders : Nat) : PartialRuntimeFilterMerger :=
  { limit := limit
    num_active_builders := num_builders
    ht_row_counts := List.replicate num_builders 0
    partial_in_filters := List.replicate num_builders []
    partial_bloom_filter_build_params := List.replicate num_builders []
    bloom_filter_descriptors := [] }

/-- The squeeze loop of `merge_in_filters`: walk the slots in order, skip
builders with an empty hash table, stop with `none` as soon as a builder
with a non-empty hash table contributed an empty in-filter list, and
otherwise collect the retained in-filter lists (in order) together with
`num_rows`, the running maximum of the retained row counts.  `none` is the
`can_merge_in_filters = false` outcome of the loop's `break`. -/
def squeezeInFilters : List Nat → List (List (Option InFilterPred)) →
    Option (List (List (Option InFilterPred)) × Nat)
  | [], _ => some ([], 0)
  | _ :: _, [] => some ([], 0)
  | c :: cs, fs :: fss =>
    if c = 0 then squeezeInFilters cs fss
    else if fs.isEmpty then none
    else
      match squeezeInFilters cs fss with
      | none => none
      | some (retained, num) => some (fs :: retained, max c num)

/-- The inner merge loop of `merge_in_filters` over one pair of positionally
aligned in-filter lists: positions where either side is null become null,
otherwise the total side's predicate absorbs the other via
`Predicate::merge`; the first merge error aborts, leaving the remaining
positions untouched.  The source iterates `total` with the other list's
iterator in lockstep (the spec's positional-alignment assumption); a shorter
other list leaves the tail of `total` untouched in the model. -/
def mergeInto : List (Option InFilterPred) → List (Option InFilterPred) →
    Except String Unit × List (Option InFilterPred)
  | [], _ => (.ok (), [])
  | ts, [] => (.ok (), ts)
  | t :: ts, o :: os =>
    match t, o with
    | none, _ =>
      let r := mergeInto ts os
      (r.1, none :: r.2)
    | some _, none =>
      let r := mergeInto ts os
      (r.1, none :: r.2)
    | some a, some b =>
      match a.merge b with
      | .error e => (.error e, some a :: ts)
      | .ok c =>
        let r := mergeInto ts os
        (r.1, some c :: r.2)

/-- The outer merge loop: fold the retained lists 1..k into slot 0. -/
def mergeTotal : List (Option InFilterPred) → List (List (Option InFilterPred)) →
    Except String Unit × List (Option InFilterPred)
  | total, [] => (.ok (), total)
  | total, l :: ls =>
    match mergeInto total l with
    | (.error e, t) => (.error e, t)
    | (.ok _, t) => mergeTotal t ls

/-- `merge_in_filters`.  On abort (`can_merge_in_filters` false, `num_rows >
1024` or no retained slot) slot 0 is cleared and the status is OK.  On the
merge path the slots are first resized to the retained lists, then lists
1..k are folded into slot 0 and the nulled positions are erased.  Slots past
0 are moved-from state in the source, unobservable through the public
accessors; the model keeps the retained tail there. -/
def merge_in_filters (m : PartialRuntimeFilterMerger) :
    Except String Unit × PartialRuntimeFilterMerger :=
  match squeezeInFilters m.ht_row_counts m.partial_in_filters with
  | none => (.ok (), { m with partial_in_filters := [] :: m.partial_in_filters.drop 1 })
  | some (retained, num_rows) =>
    match retained with
    | [] => (.ok (), { m with partial_in_filters := [] :: m.partial_in_filters.drop 1 })
    | total :: rest =>
      if 1024 < num_rows then
        (.ok (), { m with partial_in_filters := [] :: m.partial_in_filters.drop 1 })
      else
        match mergeTotal total rest with
        | (.error e, t) => (.error e, { m with partial_in_filters := t :: rest })
        | (.ok _, t) =>
          (.ok (), { m with partial_in_filters := t.filter Option.isSome :: rest })

/-- The first loop of `merge_bloom_filters`, per descriptor: mark it
pipeline-originated; skip it without a consumer; skip it when it is local
only and `row_count > _limit`; otherwise create the bloom filter for the
build type, `init` it to `row_count`, copy the join mode and install it. -/
def installBloomFilter (limit row_count : Nat) (desc : RuntimeFilterBuildDescriptor) :
    RuntimeFilterBuildDescriptor :=
  let desc := { desc with is_pipeline := true }
  if !desc.has_consumer then desc
  else if !desc.has_remote_targets && limit < row_count then desc
  else
    match create_runtime_bloom_filter desc.build_expr_type with
    | none => desc
    | some f =>
      { desc with runtime_filter := some ((f.init row_count).set_join_mode desc.join_mode) }

/-- The body of the second loop of `merge_bloom_filters` for one
`(descriptor, param)` pair: skip when the descriptor has no filter or the
param has no column; otherwise fill, and null the descriptor's filter when
filling fails (best effort). -/
def fillBloomFilter (desc : RuntimeFilterBuildDescriptor)
    (param : RuntimeBloomFilterBuildParam) : RuntimeFilterBuildDescriptor :=
  match desc.runtime_filter, param.column with
  | none, _ => desc
  | some _, none => desc
  | some f, some col =>
    match fill_runtime_bloom_filter col f param.eq_null with
    | .error _ => { desc with runtime_filter := none }
    | .ok f2 => { desc with runtime_filter := some f2 }

/-- The second loop of `merge_bloom_filters` for one builder's param list,
paired positionally with the descriptor list (the loop runs while the param
iterator has elements; remaining descriptors are untouched). -/
def fillBloomFiltersWith : List RuntimeFilterBuildDescriptor →
    List RuntimeBloomFilterBuildParam → List RuntimeFilterBuildDescriptor
  | ds, [] => ds
  | [], _ :: _ => []
  | d :: ds, p :: ps => fillBloomFilter d p :: fillBloomFiltersWith ds ps

/-- `merge_bloom_filters`: early-out when there are no builder slots;
otherwise `row_count` is the sum of every builder's hash-table row count,
the first loop installs filters on the descriptors and the second loop fills
them from every builder's params. -/
def merge_bloom_filters (m : PartialRuntimeFilterMerger) :
    Except String Unit × PartialRuntimeFilterMerger :=
  if m.partial_bloom_filter_build_params.isEmpty then (.ok (), m)
  else
    let row_count := m.ht_row_counts.foldl (fun acc c => acc + c) 0
    let descs := m.bloom_filter_descriptors.map (installBloomFilter m.limit row_count)
    let descs := m.partial_bloom_filter_build_params.foldl fillBloomFiltersWith descs
    (.ok (), { m with bloom_filter_descriptors := descs })

/-- The slot writes at the head of `add_partial_filters` (each builder
mutates only the slots indexed by its own `idx`). -/
def storeSlots (m : PartialRuntimeFilterMerger) (a : PartialFilterArgs) :
    PartialRuntimeFilterMerger :=
  { m with
    ht_row_counts := m.ht_row_counts.set a.idx a.ht_row_count
    partial_in_filters := m.partial_in_filters.set a.idx a.in_filters
    partial_bloom_filter_build_params :=
      m.partial_bloom_filter_build_params.set a.idx a.bloom_filter_build_params }

/-- `add_partial_filters`: store the slots, post-decrement the active-builder
counter and, when the pre-decrement value is 1 (this is the last builder),
store the bloom descriptors and run `merge_in_filters()` then
`merge_bloom_filters()` — the source discards both returned `Status`es — and
return true; otherwise return false. -/
def add_partial_filters (m : PartialRuntimeFilterMerger) (a : PartialFilterArgs) :
    Except String Bool × PartialRuntimeFilterMerger :=
  let m := m.storeSlots a
  let pre := m.num_active_builders
  let m := { m with num_active_builders := (pre + (sizeTMod - 1)) % sizeTMod }
  if pre = 1 then
    let m := { m with bloom_filter_descriptors := a.bloom_filter_descriptors }
    let m := (merge_in_filters m).2
    let m := (merge_bloom_filters m).2
    (.ok true, m)
  else
    (.ok false, m)

/-- `get_total_in_filters`: slot 0's in-filter list. -/
def get_total_in_filters (m : PartialRuntimeFilterMerger) : List (Option InFilterPred) :=
  m.partial_in_filters.getD 0 []

/-- `get_total_bloom_filters`. -/
def get_total_bloom_filters (m : PartialRuntimeFilterMerger) :
    List RuntimeFilterBuildDescriptor :=
  m.bloom_filter_descriptors

/-- A whole run: each builder's `add_partial_filters` call in arrival order,
collecting the returned values. -/
def runCalls (m : PartialRuntimeFilterMerger) :
    List PartialFilterArgs → List (Except String Bool) × PartialRuntimeFilterMerger
  | [] => ([], m)
  | a :: as =>
    let r := add_partial_filters m a
    let rs := runCalls r.2 as
    (r.1 :: rs.1, rs.2)

end PartialRuntimeFilterMerger

/-! Specification-side definitions used to state the properties. -/

/-- The per-predicate effect of a whole `rewrite_in_filters` pass is recorded
by `rewriteOnePass`; the canonical state of the refcounted collector after
`p` prepares and `c` closes (`p, c ≤ N < 2^32`). -/
def refStateOf (N p c pr cr : Nat) : RefCountedRuntimeFilterProbeCollector :=
  { count := (N - c) * 2 ^ 32 + (N - p)
    num_operators_generated := N
    wrapped_prepare_runs := pr
    wrapped_close_runs := cr }

/-- How often the wrapped `close` fires along an interleaving, given the
prepare/close totals `p`/`c` already consumed: it fires at a close call made
when every one of the `N` prepares has happened and exactly `N - 1` closes
have happened. -/
def closeFires (N : Nat) : List ProbeEvent → Nat → Nat → Nat
  | [], _, _ => 0
  | ProbeEvent.prepareCall :: evs, p, c => closeFires N evs (p + 1) c
  | ProbeEvent.closeCall :: evs, p, c =>
    (if p = N ∧ c + 1 = N then 1 else 0) + closeFires N evs p (c + 1)

/-- How often the wrapped `prepare`+`open` fires along an interleaving, given
the prepare total `p` already consumed: it fires at the first prepare call
(the one made when no prepare has happened yet). -/
def prepareFires : List ProbeEvent → Nat → Nat
  | [], _ => 0
  | ProbeEvent.prepareCall :: evs, p => (if p = 0 then 1 else 0) + prepareFires evs (p + 1)
  | ProbeEvent.closeCall :: evs, p => prepareFires evs p

/-- The entry of an in-filter list at column position `j` (`none` both for a
null entry and past the end). -/
def entryAt (l : List (Option InFilterPred)) (j : Nat) : Option InFilterPred :=
  l.getD j none

/-- The pure per-position effect of merging one aligned entry into the total:
null poisons, otherwise the predicates union. -/
def mergedEntry : Option InFilterPred → Option InFilterPred → Option InFilterPred
  | some a, some b => some (a.union b)
  | _, _ => none

/-- No predicate of the list carries the injected merge-failure flag. -/
def noFail (l : List (Option InFilterPred)) : Bool :=
  l.all (fun op => match op with
    | some p => !p.merge_fails
    | none => true)

/-- The in-filter lists of the builders with a non-empty hash table, in
builder order: these are the lists the squeeze phase retains. -/
def retainedInFilters (counts : List Nat) (fss : List (List (Option InFilterPred))) :
    List (List (Option InFilterPred)) :=
  ((counts.zip fss).filter (fun pr => decide (0 < pr.1))).map (fun pr => pr.2)

/-- Concrete sample predicates and mergers used by the witnesses and
counterexamples below (shared across claims). -/
def samplePred12 : InFilterPred :=
  { tuple_id := 1, slot_id := 1, keys := [1, 2], merge_fails := false }

/-- A sample predicate holding key 9. -/
def samplePred9 : InFilterPred :=
  { tuple_id := 1, slot_id := 1, keys := [9], merge_fails := false }

/-- A sample predicate whose `Predicate::merge` fails. -/
def samplePredBad : InFilterPred :=
  { tuple_id := 1, slot_id := 1, keys := [9], merge_fails := true }

/-- The spec's S3 scenario as a fully-stored merger state: row counts
(500, 500), IN-lists ([p], []). -/
def sampleMergerS3 : PartialRuntimeFilterMerger :=
  { limit := 10, num_active_builders := 0, ht_row_counts := [500, 500],
    partial_in_filters := [[some samplePred12], []],
    partial_bloom_filter_build_params := [[], []],
    bloom_filter_descriptors := [] }

/-- A stored merger state where builder 1 has an empty hash table but a
non-empty keyed IN-list: row counts (5, 0), IN-lists ([p12], [p9]). -/
def sampleMergerZeroCount : PartialRuntimeFilterMerger :=
  { limit := 10, num_active_builders := 0, ht_row_counts := [5, 0],
    partial_in_filters := [[some samplePred12], [some samplePred9]],
    partial_bloom_filter_build_params := [[], []],
    bloom_filter_descriptors := [] }

/-- A sample `add_partial_filters` call for builder 0. -/
def sampleCallA : PartialFilterArgs :=
  { idx := 0, ht_row_count := 1, in_filters := [some samplePred12],
    bloom_filter_build_params := [], bloom_filter_descriptors := [] }

/-- A sample `add_partial_filters` call for builder 1. -/
def sampleCallB : PartialFilterArgs :=
  { idx := 1, ht_row_count := 1, in_filters := [some samplePred9],
    bloom_filter_build_params := [], bloom_filter_descriptors := [] }

/-- A sample call for builder 1 whose IN-predicate makes `Predicate::merge`
fail. -/
def sampleCallBad : PartialFilterArgs :=
  { idx := 1, ht_row_count := 1, in_filters := [some samplePredBad],
    bloom_filter_build_params := [], bloom_filter_descriptors := [] }

/-- A sample bloom-filter build descriptor with a consumer and remote
targets. -/
def sampleDesc : RuntimeFilterBuildDescriptor :=
  { has_consumer := true, has_remote_targets := true, build_expr_type := 5,
    join_mode := 2, is_pipeline := false, runtime_filter := none }

/-- A stored two-builder merger state carrying one bloom descriptor and one
non-trivial build param. -/
def sampleMergerBloom : PartialRuntimeFilterMerger :=
  { limit := 100, num_active_builders := 0, ht_row_counts := [10, 20],
    partial_in_filters := [[], []],
    partial_bloom_filter_build_params :=
      [[{ eq_null := false, column := some { values := [1, 2], fill_fails := false },
          ht_row_count := 10 }], []],
    bloom_filter_descriptors := [sampleDesc] }

/-- Predicate with keys {1,2,3} (spec scenario S1, builder 0). -/
def samplePred123 : InFilterPred :=
  { tuple_id := 1, slot_id := 1, keys := [1, 2, 3], merge_fails := false }

/-- Predicate with keys {3,4,5} (spec scenario S1, builder 2). -/
def samplePred345 : InFilterPred :=
  { tuple_id := 1, slot_id := 1, keys := [3, 4, 5], merge_fails := false }

/-- The spec's S1 scenario as a fully-stored merger state: row counts
(10, 0, 20), IN-lists ([{1,2,3}], [], [{3,4,5}]). -/
def sampleMergerS1 : PartialRuntimeFilterMerger :=
  { limit := 100, num_active_builders := 0, ht_row_counts := [10, 0, 20],
    partial_in_filters := [[some samplePred123], [], [some samplePred345]],
    partial_bloom_filter_build_params := [[], [], []],
    bloom_filter_descriptors := [] }

/-- `e` is the positional union of the builders' entries at position `j`:
`e` is null exactly when some builder's entry is null, and otherwise holds
exactly the keys present in some builder's entry at that position. -/
def EntryUnion (builders : List (List (Option InFilterPred))) (j : Nat)
    (e : Option InFilterPred) : Prop :=
  (e = none ↔ ∃ b ∈ builders, entryAt b j = none) ∧
  ∀ p, e = some p →
    ∀ k : Int, k ∈ p.keys ↔ ∃ b ∈ builders, ∃ q, entryAt b j = some q ∧ k ∈ q.keys

/-! ## Helper lemmas -/

theorem lookup_append_left_none {l1 l2 : List (Int × RuntimeFilterHolder)} {k : Int}
    (h : l1.lookup k = none) : (l1 ++ l2).lookup k = l2.lookup k := by
  induction l1 with
  | nil => rfl
  | cons a l ih =>
    obtain ⟨k', v⟩ := a
    rw [List.cons_append]
    rw [List.lookup] at h ⊢
    cases hk : (k == k') with
    | true => rw [hk] at h; exact absurd h (by simp)
    | false => simp only [hk] at h ⊢; exact ih h

theorem holderObservations_no_set (ops : List HolderOp) :
    installedCollectors ops = [] → ∀ hh : RuntimeFilterHolder,
      holderObservations hh ops = List.replicate (numGets ops) hh.collector := by
  induction ops with
  | nil => intro _ _; rfl
  | cons op rest ih =>
    intro h hh
    cases op with
    | setOp c => simp [installedCollectors, List.filterMap_cons] at h
    | getOp =>
      have h' : installedCollectors rest = [] := by
        simpa [installedCollectors, List.filterMap_cons] using h
      simp [holderObservations, numGets, List.replicate_succ,
        RuntimeFilterHolder.get_collector, ih h' hh]

theorem applyMapping_cond (m : TupleSlotMapping) (p : InFilterPred) :
    (p.is_bound [m.to_tuple_id] && (p.slot_id == m.to_slot_id)) = true ↔
      (p.tuple_id = m.to_tuple_id ∧ p.slot_id = m.to_slot_id) := by
  simp [InFilterPred.is_bound, List.contains_cons]

theorem rewriteOnePass_cons (m : TupleSlotMapping) (ms : List TupleSlotMapping)
    (p : InFilterPred) :
    rewriteOnePass (m :: ms) p = rewriteOnePass ms (applyMapping m p) := rfl

theorem rewriteOnePass_last_touch (ms : List TupleSlotMapping) (p : InFilterPred) :
    rewriteOnePass ms p = p ∨
      ∃ m ∈ ms, (rewriteOnePass ms p).tuple_id = m.from_tuple_id ∧
        (rewriteOnePass ms p).slot_id = m.from_slot_id := by
  induction ms generalizing p with
  | nil => exact Or.inl rfl
  | cons m ms ih =>
    rw [rewriteOnePass_cons]
    rcases ih (applyMapping m p) with h | ⟨m', hm', h1, h2⟩
    · rw [h]
      by_cases hc : (p.is_bound [m.to_tuple_id] && (p.slot_id == m.to_slot_id)) = true
      · refine Or.inr ⟨m, List.mem_cons_self m ms, ?_, ?_⟩ <;>
          simp [applyMapping, hc]
      · left
        simp [applyMapping, hc]
    · exact Or.inr ⟨m', List.mem_cons_of_mem m hm', h1, h2⟩

theorem rewriteOnePass_untouched (ms : List TupleSlotMapping) (p : InFilterPred)
    (h : ∀ m ∈ ms, ¬(p.tuple_id = m.to_tuple_id ∧ p.slot_id = m.to_slot_id)) :
    rewriteOnePass ms p = p := by
  induction ms with
  | nil => rfl
  | cons m ms ih =>
    rw [rewriteOnePass_cons]
    have hc : ¬((p.is_bound [m.to_tuple_id] && (p.slot_id == m.to_slot_id)) = true) := by
      rw [applyMapping_cond]
      exact h m (List.mem_cons_self m ms)
    rw [show applyMapping m p = p by simp [applyMapping, hc]]
    exact ih (fun m' hm' => h m' (List.mem_cons_of_mem m hm'))

theorem rewriteOnePass_idem (ms : List TupleSlotMapping) (p : InFilterPred)
    (hsep : ∀ m ∈ ms, ∀ m2 ∈ ms,
      ¬(m.from_tuple_id = m2.to_tuple_id ∧ m.from_slot_id = m2.to_slot_id)) :
    rewriteOnePass ms (rewriteOnePass ms p) = rewriteOnePass ms p := by
  rcases rewriteOnePass_last_touch ms p with h | ⟨m, hm, h1, h2⟩
  · exact congrArg (rewriteOnePass ms) h
  · exact rewriteOnePass_untouched ms _ (fun m2 hm2 => by
      rw [h1, h2]; exact hsep m hm m2 hm2)

theorem rewrite_foldl_as_map (ms : List TupleSlotMapping)
    (fs : List InFilterPred) :
    ms.foldl (fun fs m => fs.map (applyMapping m)) fs = fs.map (rewriteOnePass ms) := by
  induction ms generalizing fs with
  | nil =>
    rw [List.foldl_nil]
    rw [show rewriteOnePass [] = fun p : InFilterPred => p from funext (fun _ => rfl)]
    exact (List.map_id' fs).symm
  | cons m ms ih =>
    rw [List.foldl_cons, ih, List.map_map]
    rfl

/-! ## C10 -/

/-- C10: `RuntimeFilterHub::add_holder` is idempotent — a second call with the
same id leaves the holder map unchanged (`emplace` is a no-op on an existing
key), so `get_holder` and `gather_holders` for that id keep resolving to the
holder installed by the first call. -/
theorem add_holder_idempotent (hub : RuntimeFilterHub) (id : Int) :
    (hub.add_holder id).add_holder id = hub.add_holder id ∧
    ((hub.add_holder id).add_holder id).get_holder id = (hub.add_holder id).get_holder id ∧
    ∀ ids : List Int,
      ((hub.add_holder id).add_holder id).gather_holders ids =
        (hub.add_holder id).gather_holders ids := by
  have key : (hub.add_holder id).add_holder id = hub.add_holder id := by
    cases h : hub.holders.lookup id with
    | some v =>
      have h1 : hub.add_holder id = hub := by
        unfold RuntimeFilterHub.add_holder
        rw [h]
      rw [h1]
      exact h1
    | none =>
      have h1 : hub.add_holder id =
          { holders := hub.holders ++
              [(id, ({ collector := none } : RuntimeFilterHolder))] } := by
        unfold RuntimeFilterHub.add_holder
        rw [h]
      have hl : (hub.holders ++
          [(id, ({ collector := none } : RuntimeFilterHolder))]).lookup id =
          some ({ collector := none } : RuntimeFilterHolder) := by
        rw [lookup_append_left_none h]
        simp [List.lookup]
      rw [h1]
      simp only [RuntimeFilterHub.add_holder, hl]
  exact ⟨key, by rw [key], fun ids => by rw [key]⟩

/-! ## C7 -/

/-- C7: for every operation trace on a `RuntimeFilterHolder` with at most one
`set_collector`, the observations are a block of nulls followed by a block of
the one installed collector (so `get_collector` never returns a different
value, and once the non-null value is observed no later observation is null). -/
theorem holder_single_publication (ops : List HolderOp)
    (h : (installedCollectors ops).length ≤ 1) :
    ∃ a b, holderObservations { collector := none } ops =
      List.replicate a none ++ List.replicate b (installedCollectors ops).head? := by
  induction ops with
  | nil => exact ⟨0, 0, rfl⟩
  | cons op rest ih =>
    cases op with
    | setOp c =>
      have hlen : (installedCollectors (HolderOp.setOp c :: rest)).length =
          (installedCollectors rest).length + 1 := by
        simp [installedCollectors, List.filterMap_cons]
      have hrest : installedCollectors rest = [] := by
        rw [← List.length_eq_zero]
        omega
      refine ⟨0, numGets rest, ?_⟩
      have hobs : holderObservations { collector := none } (HolderOp.setOp c :: rest) =
          holderObservations { collector := some c } rest := rfl
      rw [hobs, holderObservations_no_set rest hrest]
      simp [installedCollectors, List.filterMap_cons]
    | getOp =>
      have h' : (installedCollectors rest).length ≤ 1 := by
        simpa [installedCollectors, List.filterMap_cons] using h
      obtain ⟨a, b, heq⟩ := ih h'
      refine ⟨a + 1, b, ?_⟩
      have hobs : holderObservations { collector := none } (HolderOp.getOp :: rest) =
          none :: holderObservations { collector := none } rest := rfl
      rw [hobs, heq]
      simp [installedCollectors, List.filterMap_cons, List.replicate_succ]

/-- Witness for C7 at a concrete two-operation trace. -/
theorem holder_single_publication_witness :
    (installedCollectors [HolderOp.setOp { in_filters := [], bloom_filters := [] },
        HolderOp.getOp]).length ≤ 1 ∧
    ∃ a b, holderObservations { collector := none }
        [HolderOp.setOp { in_filters := [], bloom_filters := [] }, HolderOp.getOp] =
      List.replicate a none ++ List.replicate b
        (installedCollectors [HolderOp.setOp { in_filters := [], bloom_filters := [] },
          HolderOp.getOp]).head? :=
  ⟨by decide, holder_single_publication _ (by decide)⟩

/-! ## C8 -/

/-- C8 fails as stated: applying `rewrite_in_filters` twice with the same
mapping list is not idempotent.  With mappings `(2,2) ← (1,1)` and
`(1,1) ← (3,3)` a filter bound to `(3,3)` is rewritten to `(1,1)` by one
pass, and a second pass moves it on to `(2,2)`. -/
theorem rewrite_in_filters_twice_differs :
    (({ in_filters := [{ tuple_id := 3, slot_id := 3, keys := [7], merge_fails := false }],
        bloom_filters := [] } : RuntimeFilterCollector).rewrite_in_filters
          [{ from_tuple_id := 2, from_slot_id := 2, to_tuple_id := 1, to_slot_id := 1 },
           { from_tuple_id := 1, from_slot_id := 1, to_tuple_id := 3, to_slot_id := 3 }]).rewrite_in_filters
          [{ from_tuple_id := 2, from_slot_id := 2, to_tuple_id := 1, to_slot_id := 1 },
           { from_tuple_id := 1, from_slot_id := 1, to_tuple_id := 3, to_slot_id := 3 }] ≠
    ({ in_filters := [{ tuple_id := 3, slot_id := 3, keys := [7], merge_fails := false }],
        bloom_filters := [] } : RuntimeFilterCollector).rewrite_in_filters
          [{ from_tuple_id := 2, from_slot_id := 2, to_tuple_id := 1, to_slot_id := 1 },
           { from_tuple_id := 1, from_slot_id := 1, to_tuple_id := 3, to_slot_id := 3 }] := by
  decide

/-- C8 (amended): `rewrite_in_filters` is idempotent whenever no mapping's
`(from_tuple_id, from_slot_id)` coincides with any mapping's
`(to_tuple_id, to_slot_id)` (mappings project `to → from` and no rewritten
coordinate is itself a rewrite source). -/
theorem rewrite_in_filters_idempotent_of_disjoint (c : RuntimeFilterCollector)
    (ms : List TupleSlotMapping)
    (hsep : ∀ m ∈ ms, ∀ m2 ∈ ms,
      ¬(m.from_tuple_id = m2.to_tuple_id ∧ m.from_slot_id = m2.to_slot_id)) :
    (c.rewrite_in_filters ms).rewrite_in_filters ms = c.rewrite_in_filters ms := by
  unfold RuntimeFilterCollector.rewrite_in_filters
  simp only [rewrite_foldl_as_map, List.map_map]
  congr 1
  exact List.map_congr_left (fun p _ => rewriteOnePass_idem ms p hsep)

/-- Witness for C8's amended theorem at a concrete collector and mapping. -/
theorem rewrite_in_filters_idempotent_of_disjoint_witness :
    (∀ m ∈ [({ from_tuple_id := 2, from_slot_id := 2, to_tuple_id := 1, to_slot_id := 1 } :
        TupleSlotMapping)],
      ∀ m2 ∈ [({ from_tuple_id := 2, from_slot_id := 2, to_tuple_id := 1, to_slot_id := 1 } :
        TupleSlotMapping)],
      ¬(m.from_tuple_id = m2.to_tuple_id ∧ m.from_slot_id = m2.to_slot_id)) ∧
    (({ in_filters := [{ tuple_id := 1, slot_id := 1, keys := [5], merge_fails := false }],
        bloom_filters := [] } : RuntimeFilterCollector).rewrite_in_filters
          [{ from_tuple_id := 2, from_slot_id := 2, to_tuple_id := 1, to_slot_id := 1 }]).rewrite_in_filters
          [{ from_tuple_id := 2, from_slot_id := 2, to_tuple_id := 1, to_slot_id := 1 }] =
      ({ in_filters := [{ tuple_id := 1, slot_id := 1, keys := [5], merge_fails := false }],
          bloom_filters := [] } : RuntimeFilterCollector).rewrite_in_filters
          [{ from_tuple_id := 2, from_slot_id := 2, to_tuple_id := 1, to_slot_id := 1 }] :=
  ⟨by decide, rewrite_in_filters_idempotent_of_disjoint _ _ (by decide)⟩

/-! ## C4: the refcounted probe collector -/

theorem construct_eq_refStateOf (N : Nat) (hN : N < 2 ^ 32) :
    RefCountedRuntimeFilterProbeCollector.construct N = refStateOf N 0 0 0 0 := by
  simp only [RefCountedRuntimeFilterProbeCollector.construct, refStateOf]
  congr 1
  rw [Nat.shiftLeft_eq, mul_comm, ← Nat.mul_add_lt_is_or hN N]
  have hlt : 2 ^ 32 * N + N < sizeTMod := by
    have h1 : 2 ^ 32 * N ≤ 2 ^ 32 * (2 ^ 32 - 1) := Nat.mul_le_mul_left _ (by omega)
    simp only [sizeTMod]
    omega
  rw [Nat.mod_eq_of_lt hlt]
  omega

theorem prepare_step (N p c pr cr : Nat) (hN : N < 2 ^ 32) (hp : p < N) (hc : c ≤ N) :
    (refStateOf N p c pr cr).prepare =
      refStateOf N (p + 1) c (pr + (if p = 0 then 1 else 0)) cr := by
  have hpre_lt : (N - c) * 2 ^ 32 + (N - p) < sizeTMod := by
    have h1 : (N - c) * 2 ^ 32 ≤ (2 ^ 32 - 1) * 2 ^ 32 :=
      Nat.mul_le_mul_right _ (by omega)
    simp only [sizeTMod]
    omega
  have hdec : ((N - c) * 2 ^ 32 + (N - p) + (sizeTMod - 1)) % sizeTMod =
      (N - c) * 2 ^ 32 + (N - (p + 1)) := by
    have h1 : (N - c) * 2 ^ 32 + (N - p) + (sizeTMod - 1) =
        ((N - c) * 2 ^ 32 + (N - (p + 1))) + sizeTMod := by
      simp only [sizeTMod] at hpre_lt ⊢
      omega
    rw [h1, Nat.add_mod_right]
    exact Nat.mod_eq_of_lt (by simp only [sizeTMod] at hpre_lt ⊢; omega)
  have hmask : ((N - c) * 2 ^ 32 + (N - p)) &&& 0xffffffff = N - p := by
    have h1 : (0xffffffff : Nat) = 2 ^ 32 - 1 := by norm_num
    rw [h1, Nat.and_pow_two_sub_one_eq_mod]
    omega
  have hcond : (N - p = N) ↔ (p = 0) := by omega
  simp only [RefCountedRuntimeFilterProbeCollector.prepare, refStateOf, hmask, hdec, hcond]
  by_cases hp0 : p = 0 <;> simp [hp0]

theorem close_step (N p c pr cr : Nat) (hN : N < 2 ^ 32) (hp : p ≤ N) (hc : c < N) :
    (refStateOf N p c pr cr).close =
      refStateOf N p (c + 1) pr (cr + (if p = N ∧ c + 1 = N then 1 else 0)) := by
  have hpre_lt : (N - c) * 2 ^ 32 + (N - p) < sizeTMod := by
    have h1 : (N - c) * 2 ^ 32 ≤ (2 ^ 32 - 1) * 2 ^ 32 :=
      Nat.mul_le_mul_right _ (by omega)
    simp only [sizeTMod]
    omega
  have hdec : ((N - c) * 2 ^ 32 + (N - p) + (sizeTMod - 1 <<< 32)) % sizeTMod =
      (N - (c + 1)) * 2 ^ 32 + (N - p) := by
    have h1 : (N - c) * 2 ^ 32 + (N - p) + (sizeTMod - 1 <<< 32) =
        ((N - (c + 1)) * 2 ^ 32 + (N - p)) + sizeTMod := by
      rw [Nat.shiftLeft_eq]
      simp only [sizeTMod] at hpre_lt ⊢
      omega
    rw [h1, Nat.add_mod_right]
    exact Nat.mod_eq_of_lt (by simp only [sizeTMod] at hpre_lt ⊢; omega)
  have hcond : ((N - c) * 2 ^ 32 + (N - p) = 1 <<< 32) ↔ (p = N ∧ c + 1 = N) := by
    rw [Nat.shiftLeft_eq]
    omega
  simp only [RefCountedRuntimeFilterProbeCollector.close, refStateOf, hdec, hcond]
  by_cases hpc : p = N ∧ c + 1 = N <;> simp [hpc]

theorem probeRun_char (N : Nat) (hN : N < 2 ^ 32) (evs : List ProbeEvent) :
    ∀ p c pr cr, p + numPrepares evs ≤ N → c + numCloses evs ≤ N →
      probeRun (refStateOf N p c pr cr) evs =
        refStateOf N (p + numPrepares evs) (c + numCloses evs)
          (pr + prepareFires evs p) (cr + closeFires N evs p c) := by
  induction evs with
  | nil =>
    intro p c pr cr _ _
    simp [probeRun, numPrepares, numCloses, prepareFires, closeFires]
  | cons e evs ih =>
    intro p c pr cr hp hc
    cases e with
    | prepareCall =>
      have hrun : probeRun (refStateOf N p c pr cr) (ProbeEvent.prepareCall :: evs) =
          probeRun (refStateOf N p c pr cr).prepare evs := rfl
      have hpn : p < N := by simp [numPrepares] at hp; omega
      have hcn : c ≤ N := by simp [numCloses] at hc; omega
      rw [hrun, prepare_step N p c pr cr hN hpn hcn,
        ih (p + 1) c (pr + (if p = 0 then 1 else 0)) cr
          (by simp [numPrepares] at hp; omega) (by simpa [numCloses] using hc)]
      have e1 : numPrepares (ProbeEvent.prepareCall :: evs) = numPrepares evs + 1 := rfl
      have e2 : numCloses (ProbeEvent.prepareCall :: evs) = numCloses evs := rfl
      have e3 : prepareFires (ProbeEvent.prepareCall :: evs) p =
          (if p = 0 then 1 else 0) + prepareFires evs (p + 1) := rfl
      have e4 : closeFires N (ProbeEvent.prepareCall :: evs) p c =
          closeFires N evs (p + 1) c := rfl
      rw [e1, e2, e3, e4,
        show p + 1 + numPrepares evs = p + (numPrepares evs + 1) from by omega,
        Nat.add_assoc]
    | closeCall =>
      have hrun : probeRun (refStateOf N p c pr cr) (ProbeEvent.closeCall :: evs) =
          probeRun (refStateOf N p c pr cr).close evs := rfl
      have hpn : p ≤ N := by simp [numPrepares] at hp; omega
      have hcn : c < N := by simp [numCloses] at hc; omega
      rw [hrun, close_step N p c pr cr hN hpn hcn,
        ih p (c + 1) pr (cr + (if p = N ∧ c + 1 = N then 1 else 0))
          (by simpa [numPrepares] using hp) (by simp [numCloses] at hc; omega)]
      have e1 : numPrepares (ProbeEvent.closeCall :: evs) = numPrepares evs := rfl
      have e2 : numCloses (ProbeEvent.closeCall :: evs) = numCloses evs + 1 := rfl
      have e3 : prepareFires (ProbeEvent.closeCall :: evs) p = prepareFires evs p := rfl
      have e4 : closeFires N (ProbeEvent.closeCall :: evs) p c =
          (if p = N ∧ c + 1 = N then 1 else 0) + closeFires N evs p (c + 1) := rfl
      rw [e1, e2, e3, e4,
        show c + 1 + numCloses evs = c + (numCloses evs + 1) from by omega,
        Nat.add_assoc]

theorem prepareFires_eq (evs : List ProbeEvent) :
    ∀ p, prepareFires evs p = if p = 0 ∧ 0 < numPrepares evs then 1 else 0 := by
  induction evs with
  | nil => intro p; simp [prepareFires, numPrepares]
  | cons e evs ih =>
    intro p
    cases e with
    | prepareCall =>
      rw [show prepareFires (ProbeEvent.prepareCall :: evs) p =
        (if p = 0 then 1 else 0) + prepareFires evs (p + 1) from rfl, ih (p + 1)]
      by_cases hp0 : p = 0 <;> simp [hp0, numPrepares]
    | closeCall =>
      rw [show prepareFires (ProbeEvent.closeCall :: evs) p = prepareFires evs p from rfl,
        ih p]
      simp [numPrepares]

theorem closeFires_of_no_closes (N : Nat) (evs : List ProbeEvent) :
    ∀ p c, numCloses evs = 0 → closeFires N evs p c = 0 := by
  induction evs with
  | nil => intro p c _; rfl
  | cons e evs ih =>
    intro p c h
    cases e with
    | prepareCall => exact ih (p + 1) c (by simpa [numCloses] using h)
    | closeCall => simp [numCloses] at h

theorem closeFires_le_one (N : Nat) (evs : List ProbeEvent) :
    ∀ p c, c + numCloses evs ≤ N → closeFires N evs p c ≤ 1 := by
  induction evs with
  | nil => intro p c _; exact Nat.zero_le 1
  | cons e evs ih =>
    intro p c h
    cases e with
    | prepareCall => exact ih (p + 1) c (by simpa [numCloses] using h)
    | closeCall =>
      rw [show closeFires N (ProbeEvent.closeCall :: evs) p c =
        (if p = N ∧ c + 1 = N then 1 else 0) + closeFires N evs p (c + 1) from rfl]
      by_cases hpc : p = N ∧ c + 1 = N
      · rw [if_pos hpc]
        have hz : numCloses evs = 0 := by simp [numCloses] at h; omega
        rw [closeFires_of_no_closes N evs p (c + 1) hz]
      · rw [if_neg hpc]
        have := ih p (c + 1) (by simp [numCloses] at h; omega)
        omega

theorem closeFires_pos_prepares (N : Nat) (evs : List ProbeEvent) :
    ∀ p c, 0 < closeFires N evs p c → N ≤ p + numPrepares evs := by
  induction evs with
  | nil => intro p c h; simp [closeFires] at h
  | cons e evs ih =>
    intro p c h
    cases e with
    | prepareCall =>
      have := ih (p + 1) c (by simpa [closeFires] using h)
      simp [numPrepares]
      omega
    | closeCall =>
      rw [show closeFires N (ProbeEvent.closeCall :: evs) p c =
        (if p = N ∧ c + 1 = N then 1 else 0) + closeFires N evs p (c + 1) from rfl] at h
      by_cases hpc : p = N ∧ c + 1 = N
      · simp [numPrepares]
        omega
      · rw [if_neg hpc] at h
        have := ih p (c + 1) (by omega)
        simp [numPrepares]
        omega

theorem closeFires_eq_one (N : Nat) (evs : List ProbeEvent) :
    ∀ p c, p + numPrepares evs = N → c + numCloses evs = N → c < N →
      (∀ k, k ≤ evs.length → c + numCloses (evs.take k) = N →
        p + numPrepares (evs.take k) = N) →
      closeFires N evs p c = 1 := by
  induction evs with
  | nil => intro p c _ hc hcn _; simp [numCloses] at hc; omega
  | cons e evs ih =>
    intro p c hp hc hcn hall
    cases e with
    | prepareCall =>
      refine ih (p + 1) c (by simp [numPrepares] at hp; omega)
        (by simpa [numCloses] using hc) hcn (fun k hk hck => ?_)
      have := hall (k + 1) (by simp [List.length_cons]; omega)
        (by simpa [List.take_succ_cons, numCloses] using hck)
      simp [List.take_succ_cons, numPrepares] at this
      omega
    | closeCall =>
      rw [show closeFires N (ProbeEvent.closeCall :: evs) p c =
        (if p = N ∧ c + 1 = N then 1 else 0) + closeFires N evs p (c + 1) from rfl]
      by_cases hcN : c + 1 = N
      · have hlen : 1 ≤ (ProbeEvent.closeCall :: evs).length :=
          Nat.succ_le_succ (Nat.zero_le evs.length)
        have hc1 : c + numCloses ((ProbeEvent.closeCall :: evs).take 1) = N := by
          have h3 : numCloses ((ProbeEvent.closeCall :: evs).take 1) = 1 := rfl
          omega
        have hpN : p = N := by
          have h2 := hall 1 hlen hc1
          have h4 : numPrepares ((ProbeEvent.closeCall :: evs).take 1) = 0 := rfl
          omega
        rw [if_pos ⟨hpN, hcN⟩]
        have hz : numCloses evs = 0 := by simp [numCloses] at hc; omega
        rw [closeFires_of_no_closes N evs p (c + 1) hz]
      · rw [if_neg (fun hh => hcN hh.2), Nat.zero_add]
        have ep : numPrepares (ProbeEvent.closeCall :: evs) = numPrepares evs := rfl
        have ec : numCloses (ProbeEvent.closeCall :: evs) = numCloses evs + 1 := rfl
        refine ih p (c + 1) (by omega) (by omega) (by omega)
          (fun k hk hck => ?_)
        have := hall (k + 1) (by simp [List.length_cons]; omega)
          (by simp [List.take_succ_cons, numCloses]; omega)
        simpa [List.take_succ_cons, numPrepares] using this

theorem numPrepares_take_le (evs : List ProbeEvent) :
    ∀ k, numPrepares (evs.take k) ≤ numPrepares evs := by
  induction evs with
  | nil => intro k; simp
  | cons e evs ih =>
    intro k
    cases k with
    | zero => exact Nat.zero_le _
    | succ k =>
      rw [List.take_succ_cons]
      have := ih k
      cases e with
      | prepareCall =>
        have e1 : numPrepares (ProbeEvent.prepareCall :: evs.take k) =
            numPrepares (evs.take k) + 1 := rfl
        have e2 : numPrepares (ProbeEvent.prepareCall :: evs) = numPrepares evs + 1 := rfl
        omega
      | closeCall =>
        have e1 : numPrepares (ProbeEvent.closeCall :: evs.take k) =
            numPrepares (evs.take k) := rfl
        have e2 : numPrepares (ProbeEvent.closeCall :: evs) = numPrepares evs := rfl
        omega

theorem numCloses_take_le (evs : List ProbeEvent) :
    ∀ k, numCloses (evs.take k) ≤ numCloses evs := by
  induction evs with
  | nil => intro k; simp
  | cons e evs ih =>
    intro k
    cases k with
    | zero => exact Nat.zero_le _
    | succ k =>
      rw [List.take_succ_cons]
      have := ih k
      cases e with
      | prepareCall =>
        have e1 : numCloses (ProbeEvent.prepareCall :: evs.take k) =
            numCloses (evs.take k) := rfl
        have e2 : numCloses (ProbeEvent.prepareCall :: evs) = numCloses evs := rfl
        omega
      | closeCall =>
        have e1 : numCloses (ProbeEvent.closeCall :: evs.take k) =
            numCloses (evs.take k) + 1 := rfl
        have e2 : numCloses (ProbeEvent.closeCall :: evs) = numCloses evs + 1 := rfl
        omega

/-- C4 fails as stated: with N = 4 siblings, 2 prepare calls followed by 4
close calls, the wrapped `prepare`+`open` runs once but the wrapped `close`
never runs (the counter's low half never reaches zero, so the pre-decrement
value is never exactly `1 << 32`). -/
theorem refcounted_close_skipped :
    numPrepares [ProbeEvent.prepareCall, ProbeEvent.prepareCall, ProbeEvent.closeCall,
        ProbeEvent.closeCall, ProbeEvent.closeCall, ProbeEvent.closeCall] = 2 ∧
    numCloses [ProbeEvent.prepareCall, ProbeEvent.prepareCall, ProbeEvent.closeCall,
        ProbeEvent.closeCall, ProbeEvent.closeCall, ProbeEvent.closeCall] = 4 ∧
    (probeRun (RefCountedRuntimeFilterProbeCollector.construct 4)
      [ProbeEvent.prepareCall, ProbeEvent.prepareCall, ProbeEvent.closeCall,
       ProbeEvent.closeCall, ProbeEvent.closeCall, ProbeEvent.closeCall]).wrapped_prepare_runs = 1 ∧
    (probeRun (RefCountedRuntimeFilterProbeCollector.construct 4)
      [ProbeEvent.prepareCall, ProbeEvent.prepareCall, ProbeEvent.closeCall,
       ProbeEvent.closeCall, ProbeEvent.closeCall, ProbeEvent.closeCall]).wrapped_close_runs = 0 := by
  decide

/-- C4 (amended): for every interleaving with at most N prepares and at most
N closes, the wrapped `prepare`+`open` runs at most once (exactly once as
soon as some prepare occurs) and the wrapped `close` runs at most once; when
exactly N prepares and exactly N closes occur and every prepare precedes the
N-th close, the wrapped `close` runs exactly once — and on any prefix it can
only have run after all N prepares. -/
theorem refcounted_prepare_close_once (N : Nat) (evs : List ProbeEvent)
    (hN : N < 2 ^ 32) (hp : numPrepares evs ≤ N) (hc : numCloses evs ≤ N) :
    (probeRun (RefCountedRuntimeFilterProbeCollector.construct N) evs).wrapped_prepare_runs ≤ 1 ∧
    (probeRun (RefCountedRuntimeFilterProbeCollector.construct N) evs).wrapped_close_runs ≤ 1 ∧
    (0 < numPrepares evs →
      (probeRun (RefCountedRuntimeFilterProbeCollector.construct N) evs).wrapped_prepare_runs = 1) ∧
    (0 < N → numPrepares evs = N → numCloses evs = N →
      (∀ k, k ≤ evs.length → numCloses (evs.take k) = N → numPrepares (evs.take k) = N) →
      (probeRun (RefCountedRuntimeFilterProbeCollector.construct N) evs).wrapped_close_runs = 1) ∧
    (∀ k, 0 < (probeRun (RefCountedRuntimeFilterProbeCollector.construct N)
        (evs.take k)).wrapped_close_runs → N ≤ numPrepares (evs.take k)) := by
  have hrun : ∀ l : List ProbeEvent, numPrepares l ≤ N → numCloses l ≤ N →
      probeRun (RefCountedRuntimeFilterProbeCollector.construct N) l =
        refStateOf N (numPrepares l) (numCloses l) (prepareFires l 0) (closeFires N l 0 0) := by
    intro l hlp hlc
    rw [construct_eq_refStateOf N hN, probeRun_char N hN l 0 0 0 0 (by omega) (by omega)]
    simp
  rw [hrun evs hp hc]
  refine ⟨?_, ?_, ?_, ?_, ?_⟩
  · rw [show (refStateOf N (numPrepares evs) (numCloses evs) (prepareFires evs 0)
      (closeFires N evs 0 0)).wrapped_prepare_runs = prepareFires evs 0 from rfl,
      prepareFires_eq evs 0]
    split <;> omega
  · exact closeFires_le_one N evs 0 0 (by omega)
  · intro hpos
    rw [show (refStateOf N (numPrepares evs) (numCloses evs) (prepareFires evs 0)
      (closeFires N evs 0 0)).wrapped_prepare_runs = prepareFires evs 0 from rfl,
      prepareFires_eq evs 0]
    simp [hpos]
  · intro hNpos hpN hcN hall
    show closeFires N evs 0 0 = 1
    exact closeFires_eq_one N evs 0 0 (by omega) (by omega) hNpos
      (fun k hk hck => by have := hall k hk (by omega); omega)
  · intro k hkpos
    have hkp : numPrepares (evs.take k) ≤ N :=
      le_trans (numPrepares_take_le evs k) hp
    have hkc : numCloses (evs.take k) ≤ N :=
      le_trans (numCloses_take_le evs k) hc
    rw [hrun (evs.take k) hkp hkc] at hkpos
    have := closeFires_pos_prepares N (evs.take k) 0 0 (by simpa using hkpos)
    omega

/-- Witness for C4's amended theorem: N = 1 with one prepare then one close;
the wrapped close runs exactly once. -/
theorem refcounted_prepare_close_once_witness :
    (1 < 2 ^ 32 ∧ numPrepares [ProbeEvent.prepareCall, ProbeEvent.closeCall] ≤ 1 ∧
      numCloses [ProbeEvent.prepareCall, ProbeEvent.closeCall] ≤ 1) ∧
    ((probeRun (RefCountedRuntimeFilterProbeCollector.construct 1)
        [ProbeEvent.prepareCall, ProbeEvent.closeCall]).wrapped_prepare_runs ≤ 1 ∧
      (probeRun (RefCountedRuntimeFilterProbeCollector.construct 1)
        [ProbeEvent.prepareCall, ProbeEvent.closeCall]).wrapped_close_runs ≤ 1 ∧
      (0 < numPrepares [ProbeEvent.prepareCall, ProbeEvent.closeCall] →
        (probeRun (RefCountedRuntimeFilterProbeCollector.construct 1)
          [ProbeEvent.prepareCall, ProbeEvent.closeCall]).wrapped_prepare_runs = 1) ∧
      (0 < 1 → numPrepares [ProbeEvent.prepareCall, ProbeEvent.closeCall] = 1 →
        numCloses [ProbeEvent.prepareCall, ProbeEvent.closeCall] = 1 →
        (∀ k, k ≤ ([ProbeEvent.prepareCall, ProbeEvent.closeCall] : List ProbeEvent).length →
          numCloses (([ProbeEvent.prepareCall, ProbeEvent.closeCall] : List ProbeEvent).take k) = 1 →
          numPrepares (([ProbeEvent.prepareCall, ProbeEvent.closeCall] : List ProbeEvent).take k) = 1) →
        (probeRun (RefCountedRuntimeFilterProbeCollector.construct 1)
          [ProbeEvent.prepareCall, ProbeEvent.closeCall]).wrapped_close_runs = 1) ∧
      (∀ k, 0 < (probeRun (RefCountedRuntimeFilterProbeCollector.construct 1)
          (([ProbeEvent.prepareCall, ProbeEvent.closeCall] : List ProbeEvent).take k)).wrapped_close_runs →
        1 ≤ numPrepares (([ProbeEvent.prepareCall, ProbeEvent.closeCall] : List ProbeEvent).take k))) :=
  ⟨⟨by decide, by decide, by decide⟩,
    refcounted_prepare_close_once 1 [ProbeEvent.prepareCall, ProbeEvent.closeCall]
      (by decide) (by decide) (by decide)⟩

/-! ## C1: the in-filter merge abort conditions -/

theorem squeezeInFilters_none_of_poison (counts : List Nat) :
    ∀ fss : List (List (Option InFilterPred)),
      (∃ pr ∈ counts.zip fss, 0 < pr.1 ∧ pr.2 = []) →
      PartialRuntimeFilterMerger.squeezeInFilters counts fss = none := by
  induction counts with
  | nil => intro fss h; simp at h
  | cons c cs ih =>
    intro fss h
    cases fss with
    | nil => simp at h
    | cons f fs =>
      rw [List.zip_cons_cons] at h
      rcases h with ⟨pr, hmem, hpos, hempty⟩
      rcases List.mem_cons.mp hmem with hhd | htl
      · subst hhd
        simp only at hpos hempty
        subst hempty
        have hc : ¬(c = 0) := by omega
        simp [PartialRuntimeFilterMerger.squeezeInFilters, hc]
      · have hrec : PartialRuntimeFilterMerger.squeezeInFilters cs fs = none :=
          ih fs ⟨pr, htl, hpos, hempty⟩
        by_cases hc : c = 0
        · simp [PartialRuntimeFilterMerger.squeezeInFilters, hc, hrec]
        · by_cases hf : f.isEmpty
          · simp [PartialRuntimeFilterMerger.squeezeInFilters, hc, hf]
          · simp [PartialRuntimeFilterMerger.squeezeInFilters, hc, hf, hrec]

theorem squeezeInFilters_all_zero (counts : List Nat) :
    ∀ fss : List (List (Option InFilterPred)),
      (∀ c ∈ counts, c = 0) →
      PartialRuntimeFilterMerger.squeezeInFilters counts fss = some ([], 0) := by
  induction counts with
  | nil => intro fss _; rfl
  | cons c cs ih =>
    intro fss h
    cases fss with
    | nil => rfl
    | cons f fs =>
      have hc : c = 0 := h c (List.mem_cons_self c cs)
      have := ih fs (fun c' hc' => h c' (List.mem_cons_of_mem c hc'))
      simp [PartialRuntimeFilterMerger.squeezeInFilters, hc, this]

theorem squeezeInFilters_num_bound (counts : List Nat) :
    ∀ (fss : List (List (Option InFilterPred))) r num,
      counts.length ≤ fss.length →
      PartialRuntimeFilterMerger.squeezeInFilters counts fss = some (r, num) →
      ∀ c ∈ counts, c ≤ num ∨ c = 0 := by
  induction counts with
  | nil => intro fss r num _ _ c hc; simp at hc
  | cons c0 cs ih =>
    intro fss r num hlen hsq c hc
    cases fss with
    | nil => simp at hlen
    | cons f fs =>
      simp only [List.length_cons] at hlen
      by_cases hc0 : c0 = 0
      · rw [show PartialRuntimeFilterMerger.squeezeInFilters (c0 :: cs) (f :: fs) =
          PartialRuntimeFilterMerger.squeezeInFilters cs fs from by
            simp [PartialRuntimeFilterMerger.squeezeInFilters, hc0]] at hsq
        rcases List.mem_cons.mp hc with rfl | htl
        · exact Or.inr hc0
        · exact ih fs r num (by omega) hsq c htl
      · by_cases hf : f.isEmpty
        · simp [PartialRuntimeFilterMerger.squeezeInFilters, hc0, hf] at hsq
        · cases hrec : PartialRuntimeFilterMerger.squeezeInFilters cs fs with
          | none =>
            simp [PartialRuntimeFilterMerger.squeezeInFilters, hc0, hf, hrec] at hsq
          | some pair =>
            obtain ⟨r', num'⟩ := pair
            have heq : (f :: r', max c0 num') = (r, num) := by
              simpa [PartialRuntimeFilterMerger.squeezeInFilters, hc0, hf, hrec] using hsq
            have hnum : num = max c0 num' := by
              have := congrArg Prod.snd heq
              simpa using this.symm
            rcases List.mem_cons.mp hc with rfl | htl
            · exact Or.inl (hnum ▸ Nat.le_max_left c num')
            · rcases ih fs r' num' (by omega) hrec c htl with h1 | h1
              · exact Or.inl (hnum ▸ le_trans h1 (Nat.le_max_right c0 num'))
              · exact Or.inr h1

theorem merge_bloom_filters_preserves_in (m : PartialRuntimeFilterMerger) :
    ((PartialRuntimeFilterMerger.merge_bloom_filters m).2).partial_in_filters =
      m.partial_in_filters := by
  by_cases h : m.partial_bloom_filter_build_params.isEmpty <;>
    simp [PartialRuntimeFilterMerger.merge_bloom_filters, h]

/-- The abort path of `merge_in_filters`: whichever abort condition fires, the
result is OK with slot 0 cleared. -/
theorem merge_in_filters_abort_shape (m : PartialRuntimeFilterMerger)
    (hlen : m.ht_row_counts.length = m.partial_in_filters.length)
    (habort :
      (∃ pr ∈ m.ht_row_counts.zip m.partial_in_filters, 0 < pr.1 ∧ pr.2 = []) ∨
      (∀ c ∈ m.ht_row_counts, c = 0) ∨
      (∃ c ∈ m.ht_row_counts, 1024 < c)) :
    PartialRuntimeFilterMerger.merge_in_filters m =
      (.ok (), { m with partial_in_filters := [] :: m.partial_in_filters.drop 1 }) := by
  rcases habort with hpoison | hzero | ⟨c, hc, hbig⟩
  · have hs := squeezeInFilters_none_of_poison m.ht_row_counts m.partial_in_filters hpoison
    simp [PartialRuntimeFilterMerger.merge_in_filters, hs]
  · have hs := squeezeInFilters_all_zero m.ht_row_counts m.partial_in_filters hzero
    simp [PartialRuntimeFilterMerger.merge_in_filters, hs]
  · cases hsq : PartialRuntimeFilterMerger.squeezeInFilters m.ht_row_counts
      m.partial_in_filters with
    | none => simp [PartialRuntimeFilterMerger.merge_in_filters, hsq]
    | some pair =>
      obtain ⟨r, num⟩ := pair
      have hnum : 1024 < num := by
        rcases squeezeInFilters_num_bound m.ht_row_counts m.partial_in_filters r num
          (le_of_eq hlen) hsq c hc with h1 | h1
        · omega
        · omega
      cases r with
      | nil => simp [PartialRuntimeFilterMerger.merge_in_filters, hsq]
      | cons total rest =>
        simp [PartialRuntimeFilterMerger.merge_in_filters, hsq, hnum]

/-- C1: if some builder with a non-empty hash table supplied an empty
IN-filter list, or the maximum hash-table row count exceeds 1024, or every
builder's hash table is empty, then `merge_in_filters` clears slot 0 and
returns success, so `get_total_in_filters` is empty (also after the
subsequent `merge_bloom_filters`). -/
theorem merge_in_filters_abort_clears_slot0 (m : PartialRuntimeFilterMerger)
    (hlen : m.ht_row_counts.length = m.partial_in_filters.length)
    (habort :
      (∃ pr ∈ m.ht_row_counts.zip m.partial_in_filters, 0 < pr.1 ∧ pr.2 = []) ∨
      (∀ c ∈ m.ht_row_counts, c = 0) ∨
      (∃ c ∈ m.ht_row_counts, 1024 < c)) :
    (PartialRuntimeFilterMerger.merge_in_filters m).1 = .ok () ∧
    ((PartialRuntimeFilterMerger.merge_in_filters m).2).get_total_in_filters = [] ∧
    ((PartialRuntimeFilterMerger.merge_bloom_filters
        (PartialRuntimeFilterMerger.merge_in_filters m).2).2).get_total_in_filters = [] := by
  have hshape := merge_in_filters_abort_shape m hlen habort
  rw [hshape]
  refine ⟨rfl, rfl, ?_⟩
  show ((PartialRuntimeFilterMerger.merge_bloom_filters
      { m with partial_in_filters :=
          [] :: m.partial_in_filters.drop 1 }).2).partial_in_filters.getD 0 [] = []
  rw [merge_bloom_filters_preserves_in]
  rfl

/-- Witness for C1 at the spec's S3 scenario: row counts (500, 500), IN-lists
([p], []). -/
theorem merge_in_filters_abort_clears_slot0_witness :
    (sampleMergerS3.ht_row_counts.length = sampleMergerS3.partial_in_filters.length) ∧
    (PartialRuntimeFilterMerger.merge_in_filters sampleMergerS3).1 = .ok () ∧
    ((PartialRuntimeFilterMerger.merge_in_filters sampleMergerS3).2).get_total_in_filters = [] ∧
    ((PartialRuntimeFilterMerger.merge_bloom_filters
        (PartialRuntimeFilterMerger.merge_in_filters
          sampleMergerS3).2).2).get_total_in_filters = [] :=
  ⟨rfl, merge_in_filters_abort_clears_slot0 sampleMergerS3 rfl
    (Or.inl ⟨(500, []), by decide, by decide, rfl⟩)⟩

/-! ## C2: the rendezvous -/

theorem storeSlots_counter (m : PartialRuntimeFilterMerger) (a : PartialFilterArgs) :
    (m.storeSlots a).num_active_builders = m.num_active_builders := rfl

theorem foldl_storeSlots_counter (as : List PartialFilterArgs) :
    ∀ (m : PartialRuntimeFilterMerger) (v : Nat),
      as.foldl PartialRuntimeFilterMerger.storeSlots { m with num_active_builders := v } =
        { as.foldl PartialRuntimeFilterMerger.storeSlots m with num_active_builders := v } := by
  induction as with
  | nil => intro m v; rfl
  | cons a as ih =>
    intro m v
    rw [List.foldl_cons, List.foldl_cons]
    have h1 : PartialRuntimeFilterMerger.storeSlots { m with num_active_builders := v } a =
        { PartialRuntimeFilterMerger.storeSlots m a with num_active_builders := v } := rfl
    rw [h1, ih]

theorem runCalls_cons (m : PartialRuntimeFilterMerger) (a : PartialFilterArgs)
    (as : List PartialFilterArgs) :
    PartialRuntimeFilterMerger.runCalls m (a :: as) =
      ((PartialRuntimeFilterMerger.add_partial_filters m a).1 ::
        (PartialRuntimeFilterMerger.runCalls
          (PartialRuntimeFilterMerger.add_partial_filters m a).2 as).1,
       (PartialRuntimeFilterMerger.runCalls
          (PartialRuntimeFilterMerger.add_partial_filters m a).2 as).2) := rfl

theorem add_partial_filters_not_last (m : PartialRuntimeFilterMerger)
    (a : PartialFilterArgs) (h : m.num_active_builders ≠ 1) :
    PartialRuntimeFilterMerger.add_partial_filters m a =
      (.ok false, { m.storeSlots a with num_active_builders :=
        (m.num_active_builders + (sizeTMod - 1)) % sizeTMod }) := by
  simp [PartialRuntimeFilterMerger.add_partial_filters, storeSlots_counter, h]

theorem add_partial_filters_last (m : PartialRuntimeFilterMerger)
    (a : PartialFilterArgs) (h : m.num_active_builders = 1) :
    PartialRuntimeFilterMerger.add_partial_filters m a =
      (.ok true,
        (PartialRuntimeFilterMerger.merge_bloom_filters
          (PartialRuntimeFilterMerger.merge_in_filters
            { m.storeSlots a with
              num_active_builders := 0
              bloom_filter_descriptors := a.bloom_filter_descriptors }).2).2) := by
  have hc0 : (1 + (sizeTMod - 1)) % sizeTMod = 0 := by norm_num [sizeTMod]
  simp [PartialRuntimeFilterMerger.add_partial_filters, storeSlots_counter, h, hc0]

theorem runCalls_rendezvous_aux (calls : List PartialFilterArgs) :
    ∀ m : PartialRuntimeFilterMerger, m.num_active_builders = calls.length →
      calls.length < sizeTMod →
      ∀ hne : calls ≠ [],
      PartialRuntimeFilterMerger.runCalls m calls =
        (List.replicate (calls.length - 1) (Except.ok false) ++ [Except.ok true],
          (PartialRuntimeFilterMerger.merge_bloom_filters
            (PartialRuntimeFilterMerger.merge_in_filters
              { calls.foldl PartialRuntimeFilterMerger.storeSlots m with
                num_active_builders := 0
                bloom_filter_descriptors :=
                  (calls.getLast hne).bloom_filter_descriptors }).2).2) := by
  induction calls with
  | nil => intro m _ _ hne; exact absurd rfl hne
  | cons a as ih =>
    intro m hcount hmod hne
    cases as with
    | nil =>
      have h1 : m.num_active_builders = 1 := by simpa using hcount
      rw [runCalls_cons, add_partial_filters_last m a h1]
      rfl
    | cons b bs =>
      have hlen2 : m.num_active_builders = bs.length + 2 := by
        simpa [List.length_cons] using hcount
      have hne1 : m.num_active_builders ≠ 1 := by omega
      have hdec : (m.num_active_builders + (sizeTMod - 1)) % sizeTMod =
          m.num_active_builders - 1 := by
        have hcb : m.num_active_builders < sizeTMod := by
          simp only [List.length_cons] at hmod
          omega
        simp only [sizeTMod] at hcb ⊢
        omega
      rw [runCalls_cons, add_partial_filters_not_last m a hne1]
      have hcnt2 : ({ m.storeSlots a with num_active_builders :=
          (m.num_active_builders + (sizeTMod - 1)) % sizeTMod }).num_active_builders =
          (b :: bs).length := by
        show (m.num_active_builders + (sizeTMod - 1)) % sizeTMod = (b :: bs).length
        rw [hdec, hlen2]
        simp [List.length_cons]
      rw [ih _ hcnt2 (by simp only [List.length_cons] at hmod ⊢; omega)
        (List.cons_ne_nil b bs)]
      rw [hdec, hlen2]
      have hfold : (b :: bs).foldl PartialRuntimeFilterMerger.storeSlots
          { m.storeSlots a with num_active_builders := bs.length + 2 - 1 } =
          { (b :: bs).foldl PartialRuntimeFilterMerger.storeSlots (m.storeSlots a) with
            num_active_builders := bs.length + 2 - 1 } :=
        foldl_storeSlots_counter (b :: bs) (m.storeSlots a) (bs.length + 2 - 1)
      rw [hfold]
      rw [show ((a :: b :: bs).getLast hne) = ((b :: bs).getLast (List.cons_ne_nil b bs))
        from List.getLast_cons (List.cons_ne_nil b bs)]
      simp [List.length_cons, List.replicate_succ]

theorem runCalls_no_merge (as : List PartialFilterArgs) :
    ∀ m : PartialRuntimeFilterMerger,
      as.length < m.num_active_builders → m.num_active_builders < sizeTMod →
      ((PartialRuntimeFilterMerger.runCalls m as).2).bloom_filter_descriptors =
        m.bloom_filter_descriptors := by
  induction as with
  | nil => intro m _ _; rfl
  | cons a as ih =>
    intro m hlen hmod
    have hne1 : m.num_active_builders ≠ 1 := by
      simp only [List.length_cons] at hlen
      omega
    rw [runCalls_cons, add_partial_filters_not_last m a hne1]
    have hdec : (m.num_active_builders + (sizeTMod - 1)) % sizeTMod =
        m.num_active_builders - 1 := by
      simp only [sizeTMod] at hmod ⊢
      omega
    have := ih { m.storeSlots a with num_active_builders :=
        (m.num_active_builders + (sizeTMod - 1)) % sizeTMod }
      (by simp only [List.length_cons] at hlen; simp [hdec]; omega)
      (by simp [hdec]; omega)
    simpa using this

/-- C2: for every merger over N builders (N ≥ 1) and every sequence of N
`add_partial_filters` calls — one per builder, distinct in-range indices, in
any order — every call but the N-th returns merged = false, the N-th returns
merged = true, no call before the N-th stores the bloom descriptors, and the
final state is exactly `merge_bloom_filters ∘ merge_in_filters` applied to
the fully stored slots with the last call's descriptors. -/
theorem add_partial_filters_rendezvous (limit N : Nat) (calls : List PartialFilterArgs)
    (hlen : calls.length = N) (hN : 0 < N) (hmod : N < sizeTMod)
    (hidx : ∀ a ∈ calls, a.idx < N)
    (hnodup : (calls.map PartialFilterArgs.idx).Nodup) (hne : calls ≠ []) :
    (PartialRuntimeFilterMerger.runCalls
      (PartialRuntimeFilterMerger.construct limit N) calls).1 =
        List.replicate (N - 1) (Except.ok false) ++ [Except.ok true] ∧
    (∀ k, k < N →
      ((PartialRuntimeFilterMerger.runCalls
        (PartialRuntimeFilterMerger.construct limit N) (calls.take k)).2).bloom_filter_descriptors = []) ∧
    (PartialRuntimeFilterMerger.runCalls
      (PartialRuntimeFilterMerger.construct limit N) calls).2 =
        (PartialRuntimeFilterMerger.merge_bloom_filters
          (PartialRuntimeFilterMerger.merge_in_filters
            { calls.foldl PartialRuntimeFilterMerger.storeSlots
                (PartialRuntimeFilterMerger.construct limit N) with
              num_active_builders := 0
              bloom_filter_descriptors :=
                (calls.getLast hne).bloom_filter_descriptors }).2).2 := by
  have hcnt : (PartialRuntimeFilterMerger.construct limit N).num_active_builders =
      calls.length := by simp [PartialRuntimeFilterMerger.construct, hlen]
  have hmain := runCalls_rendezvous_aux calls (PartialRuntimeFilterMerger.construct limit N)
    hcnt (by omega) hne
  refine ⟨?_, ?_, ?_⟩
  · rw [hmain, hlen]
  · intro k hk
    have htk : (calls.take k).length < N := by
      rw [List.length_take]
      omega
    exact runCalls_no_merge (calls.take k) (PartialRuntimeFilterMerger.construct limit N)
      (by simp [PartialRuntimeFilterMerger.construct]; omega) (by simp [PartialRuntimeFilterMerger.construct]; omega)
  · rw [hmain]

/-- Witness for C2 with N = 2 and two concrete calls. -/
theorem add_partial_filters_rendezvous_witness :
    ([sampleCallA, sampleCallB].length = 2 ∧ (0 : Nat) < 2 ∧ 2 < sizeTMod ∧
      (∀ a ∈ [sampleCallA, sampleCallB], a.idx < 2) ∧
      ([sampleCallA, sampleCallB].map PartialFilterArgs.idx).Nodup ∧
      [sampleCallA, sampleCallB] ≠ []) ∧
    (PartialRuntimeFilterMerger.runCalls
      (PartialRuntimeFilterMerger.construct 7 2) [sampleCallA, sampleCallB]).1 =
        List.replicate 1 (Except.ok false) ++ [Except.ok true] :=
  ⟨⟨rfl, by decide, by norm_num [sizeTMod], by decide, by decide, by decide⟩,
    (add_partial_filters_rendezvous 7 2 [sampleCallA, sampleCallB] rfl (by decide)
      (by norm_num [sizeTMod]) (by decide) (by decide) (by decide)).1⟩

/-! ## C3: the in-filter merge error is discarded by `add_partial_filters` -/

/-- C3 documents the divergence: on an input whose IN-predicate merge fails,
`merge_in_filters` run on the very state the last `add_partial_filters` call
builds returns an error — yet both calls of the run return OK and the last
one returns merged = true, because the source drops the `Status` of
`merge_in_filters()` (line 222 has no `RETURN_IF_ERROR`). -/
theorem merge_error_discarded :
    (PartialRuntimeFilterMerger.runCalls (PartialRuntimeFilterMerger.construct 5 2)
      [sampleCallA, sampleCallBad]).1 = [Except.ok false, Except.ok true] ∧
    (PartialRuntimeFilterMerger.merge_in_filters
      { ((PartialRuntimeFilterMerger.construct 5 2).storeSlots sampleCallA).storeSlots
          sampleCallBad with
        num_active_builders := 0
        bloom_filter_descriptors := sampleCallBad.bloom_filter_descriptors }).1 =
      Except.error "merge failed" := by
  constructor
  · rfl
  · rfl

/-! ## C9: the constructor's `limit` does not influence the in-filter merge -/

theorem merge_in_filters_preserves (m : PartialRuntimeFilterMerger) :
    ((PartialRuntimeFilterMerger.merge_in_filters m).2).num_active_builders =
        m.num_active_builders ∧
    ((PartialRuntimeFilterMerger.merge_in_filters m).2).ht_row_counts = m.ht_row_counts ∧
    ((PartialRuntimeFilterMerger.merge_in_filters m).2).partial_bloom_filter_build_params =
        m.partial_bloom_filter_build_params ∧
    ((PartialRuntimeFilterMerger.merge_in_filters m).2).bloom_filter_descriptors =
        m.bloom_filter_descriptors ∧
    ((PartialRuntimeFilterMerger.merge_in_filters m).2).limit = m.limit := by
  unfold PartialRuntimeFilterMerger.merge_in_filters
  cases hsq : PartialRuntimeFilterMerger.squeezeInFilters m.ht_row_counts
      m.partial_in_filters with
  | none => simp
  | some pair =>
    obtain ⟨r, num⟩ := pair
    cases r with
    | nil => simp
    | cons total rest =>
      by_cases hnum : 1024 < num
      · simp [hnum]
      · cases hmt : PartialRuntimeFilterMerger.mergeTotal total rest with
        | mk st t => cases st <;> simp [hnum, hmt]

theorem merge_bloom_filters_preserves (m : PartialRuntimeFilterMerger) :
    ((PartialRuntimeFilterMerger.merge_bloom_filters m).2).num_active_builders =
        m.num_active_builders ∧
    ((PartialRuntimeFilterMerger.merge_bloom_filters m).2).ht_row_counts = m.ht_row_counts ∧
    ((PartialRuntimeFilterMerger.merge_bloom_filters m).2).partial_bloom_filter_build_params =
        m.partial_bloom_filter_build_params ∧
    ((PartialRuntimeFilterMerger.merge_bloom_filters m).2).limit = m.limit := by
  by_cases h : m.partial_bloom_filter_build_params.isEmpty <;>
    simp [PartialRuntimeFilterMerger.merge_bloom_filters, h]

theorem merge_in_filters_eqv (m1 m2 : PartialRuntimeFilterMerger)
    (h2 : m1.ht_row_counts = m2.ht_row_counts)
    (h3 : m1.partial_in_filters = m2.partial_in_filters) :
    (PartialRuntimeFilterMerger.merge_in_filters m1).1 =
      (PartialRuntimeFilterMerger.merge_in_filters m2).1 ∧
    ((PartialRuntimeFilterMerger.merge_in_filters m1).2).partial_in_filters =
      ((PartialRuntimeFilterMerger.merge_in_filters m2).2).partial_in_filters := by
  unfold PartialRuntimeFilterMerger.merge_in_filters
  rw [h2, h3]
  cases hsq : PartialRuntimeFilterMerger.squeezeInFilters m2.ht_row_counts
      m2.partial_in_filters with
  | none => simp [h3]
  | some pair =>
    obtain ⟨r, num⟩ := pair
    cases r with
    | nil => simp [h3]
    | cons total rest =>
      by_cases hnum : 1024 < num
      · simp [hnum, h3]
      · cases hmt : PartialRuntimeFilterMerger.mergeTotal total rest with
        | mk st t => cases st <;> simp [hnum, hmt]

theorem merge_bloom_filters_status (m : PartialRuntimeFilterMerger) :
    (PartialRuntimeFilterMerger.merge_bloom_filters m).1 = .ok () := by
  by_cases h : m.partial_bloom_filter_build_params.isEmpty <;>
    simp [PartialRuntimeFilterMerger.merge_bloom_filters, h]

theorem add_partial_filters_eqv (m1 m2 : PartialRuntimeFilterMerger)
    (a : PartialFilterArgs)
    (h1 : m1.num_active_builders = m2.num_active_builders)
    (h2 : m1.ht_row_counts = m2.ht_row_counts)
    (h3 : m1.partial_in_filters = m2.partial_in_filters)
    (h4 : m1.partial_bloom_filter_build_params = m2.partial_bloom_filter_build_params) :
    (PartialRuntimeFilterMerger.add_partial_filters m1 a).1 =
      (PartialRuntimeFilterMerger.add_partial_filters m2 a).1 ∧
    ((PartialRuntimeFilterMerger.add_partial_filters m1 a).2).num_active_builders =
      ((PartialRuntimeFilterMerger.add_partial_filters m2 a).2).num_active_builders ∧
    ((PartialRuntimeFilterMerger.add_partial_filters m1 a).2).ht_row_counts =
      ((PartialRuntimeFilterMerger.add_partial_filters m2 a).2).ht_row_counts ∧
    ((PartialRuntimeFilterMerger.add_partial_filters m1 a).2).partial_in_filters =
      ((PartialRuntimeFilterMerger.add_partial_filters m2 a).2).partial_in_filters ∧
    ((PartialRuntimeFilterMerger.add_partial_filters m1 a).2).partial_bloom_filter_build_params =
      ((PartialRuntimeFilterMerger.add_partial_filters m2 a).2).partial_bloom_filter_build_params := by
  have hs1 : (m1.storeSlots a).ht_row_counts = (m2.storeSlots a).ht_row_counts := by
    simp [PartialRuntimeFilterMerger.storeSlots, h2]
  have hs3 : (m1.storeSlots a).partial_in_filters = (m2.storeSlots a).partial_in_filters := by
    simp [PartialRuntimeFilterMerger.storeSlots, h3]
  have hs4 : (m1.storeSlots a).partial_bloom_filter_build_params =
      (m2.storeSlots a).partial_bloom_filter_build_params := by
    simp [PartialRuntimeFilterMerger.storeSlots, h4]
  by_cases hpre : m1.num_active_builders = 1
  · have hpre2 : m2.num_active_builders = 1 := h1 ▸ hpre
    rw [add_partial_filters_last m1 a hpre, add_partial_filters_last m2 a hpre2]
    set x1 : PartialRuntimeFilterMerger :=
      { m1.storeSlots a with
        num_active_builders := 0
        bloom_filter_descriptors := a.bloom_filter_descriptors } with hx1
    set x2 : PartialRuntimeFilterMerger :=
      { m2.storeSlots a with
        num_active_builders := 0
        bloom_filter_descriptors := a.bloom_filter_descriptors } with hx2
    have hmi := merge_in_filters_eqv x1 x2 hs1 hs3
    obtain ⟨p1a, p1b, p1c, p1d, p1e⟩ :=
      merge_in_filters_preserves x1
    obtain ⟨p2a, p2b, p2c, p2d, p2e⟩ :=
      merge_in_filters_preserves x2
    obtain ⟨q1a, q1b, q1c, q1d⟩ :=
      merge_bloom_filters_preserves (PartialRuntimeFilterMerger.merge_in_filters x1).2
    obtain ⟨q2a, q2b, q2c, q2d⟩ :=
      merge_bloom_filters_preserves (PartialRuntimeFilterMerger.merge_in_filters x2).2
    refine ⟨rfl, ?_, ?_, ?_, ?_⟩
    · rw [q1a, q2a, p1a, p2a]
    · rw [q1b, q2b, p1b, p2b]
      exact hs1
    · rw [merge_bloom_filters_preserves_in, merge_bloom_filters_preserves_in]
      exact hmi.2
    · rw [q1c, q2c, p1c, p2c]
      exact hs4
  · have hpre2 : m2.num_active_builders ≠ 1 := h1 ▸ hpre
    rw [add_partial_filters_not_last m1 a hpre, add_partial_filters_not_last m2 a hpre2]
    exact ⟨rfl, by simp [h1], by simpa using hs1, by simpa using hs3, by simpa using hs4⟩

theorem runCalls_eqv (calls : List PartialFilterArgs) :
    ∀ m1 m2 : PartialRuntimeFilterMerger,
      m1.num_active_builders = m2.num_active_builders →
      m1.ht_row_counts = m2.ht_row_counts →
      m1.partial_in_filters = m2.partial_in_filters →
      m1.partial_bloom_filter_build_params = m2.partial_bloom_filter_build_params →
      (PartialRuntimeFilterMerger.runCalls m1 calls).1 =
        (PartialRuntimeFilterMerger.runCalls m2 calls).1 ∧
      ((PartialRuntimeFilterMerger.runCalls m1 calls).2).num_active_builders =
        ((PartialRuntimeFilterMerger.runCalls m2 calls).2).num_active_builders ∧
      ((PartialRuntimeFilterMerger.runCalls m1 calls).2).ht_row_counts =
        ((PartialRuntimeFilterMerger.runCalls m2 calls).2).ht_row_counts ∧
      ((PartialRuntimeFilterMerger.runCalls m1 calls).2).partial_in_filters =
        ((PartialRuntimeFilterMerger.runCalls m2 calls).2).partial_in_filters ∧
      ((PartialRuntimeFilterMerger.runCalls m1 calls).2).partial_bloom_filter_build_params =
        ((PartialRuntimeFilterMerger.runCalls m2 calls).2).partial_bloom_filter_build_params := by
  induction calls with
  | nil => intro m1 m2 h1 h2 h3 h4; exact ⟨rfl, h1, h2, h3, h4⟩
  | cons a as ih =>
    intro m1 m2 h1 h2 h3 h4
    obtain ⟨e0, e1, e2, e3, e4⟩ := add_partial_filters_eqv m1 m2 a h1 h2 h3 h4
    obtain ⟨f0, f1, f2, f3, f4⟩ :=
      ih (PartialRuntimeFilterMerger.add_partial_filters m1 a).2
        (PartialRuntimeFilterMerger.add_partial_filters m2 a).2 e1 e2 e3 e4
    rw [runCalls_cons, runCalls_cons]
    exact ⟨by rw [e0, f0], f1, f2, f3, f4⟩

theorem installBloomFilter_remote (l1 l2 rc : Nat) (d : RuntimeFilterBuildDescriptor)
    (hrem : d.has_remote_targets = true) :
    PartialRuntimeFilterMerger.installBloomFilter l1 rc d =
      PartialRuntimeFilterMerger.installBloomFilter l2 rc d := by
  simp [PartialRuntimeFilterMerger.installBloomFilter, hrem]

theorem merge_in_filters_limit (m : PartialRuntimeFilterMerger) (l : Nat) :
    PartialRuntimeFilterMerger.merge_in_filters { m with limit := l } =
      ((PartialRuntimeFilterMerger.merge_in_filters m).1,
        { (PartialRuntimeFilterMerger.merge_in_filters m).2 with limit := l }) := by
  unfold PartialRuntimeFilterMerger.merge_in_filters
  cases hsq : PartialRuntimeFilterMerger.squeezeInFilters m.ht_row_counts
      m.partial_in_filters with
  | none => simp [hsq]
  | some pair =>
    obtain ⟨r, num⟩ := pair
    cases r with
    | nil => simp [hsq]
    | cons total rest =>
      by_cases hnum : 1024 < num
      · simp [hsq, hnum]
      · cases hmt : PartialRuntimeFilterMerger.mergeTotal total rest with
        | mk st t => cases st <;> simp [hsq, hnum, hmt]

theorem merge_bloom_filters_limit_remote (m : PartialRuntimeFilterMerger) (l : Nat)
    (hrem : ∀ d ∈ m.bloom_filter_descriptors, d.has_remote_targets = true) :
    PartialRuntimeFilterMerger.merge_bloom_filters { m with limit := l } =
      ((PartialRuntimeFilterMerger.merge_bloom_filters m).1,
        { (PartialRuntimeFilterMerger.merge_bloom_filters m).2 with limit := l }) := by
  by_cases h : m.partial_bloom_filter_build_params.isEmpty
  · simp [PartialRuntimeFilterMerger.merge_bloom_filters, h]
  · have hmap : m.bloom_filter_descriptors.map
        (PartialRuntimeFilterMerger.installBloomFilter l
          (m.ht_row_counts.foldl (fun acc c => acc + c) 0)) =
        m.bloom_filter_descriptors.map
          (PartialRuntimeFilterMerger.installBloomFilter m.limit
            (m.ht_row_counts.foldl (fun acc c => acc + c) 0)) :=
      List.map_congr_left (fun d hd => installBloomFilter_remote _ _ _ d (hrem d hd))
    simp [PartialRuntimeFilterMerger.merge_bloom_filters, h, hmap]

theorem add_partial_filters_limit (m : PartialRuntimeFilterMerger) (l : Nat)
    (a : PartialFilterArgs)
    (hrem : ∀ d ∈ a.bloom_filter_descriptors, d.has_remote_targets = true) :
    PartialRuntimeFilterMerger.add_partial_filters { m with limit := l } a =
      ((PartialRuntimeFilterMerger.add_partial_filters m a).1,
        { (PartialRuntimeFilterMerger.add_partial_filters m a).2 with limit := l }) := by
  by_cases hpre : m.num_active_builders = 1
  · have hpre' : ({ m with limit := l } :
        PartialRuntimeFilterMerger).num_active_builders = 1 := hpre
    rw [add_partial_filters_last m a hpre, add_partial_filters_last _ a hpre']
    have hx : ({ ({ m with limit := l } :
        PartialRuntimeFilterMerger).storeSlots a with
          num_active_builders := 0
          bloom_filter_descriptors := a.bloom_filter_descriptors } :
        PartialRuntimeFilterMerger) =
        { { m.storeSlots a with
            num_active_builders := 0
            bloom_filter_descriptors := a.bloom_filter_descriptors } with limit := l } := rfl
    rw [hx, merge_in_filters_limit]
    have hdescs : ∀ d ∈ ((PartialRuntimeFilterMerger.merge_in_filters
        { m.storeSlots a with
          num_active_builders := 0
          bloom_filter_descriptors := a.bloom_filter_descriptors }).2).bloom_filter_descriptors,
        d.has_remote_targets = true := by
      obtain ⟨_, _, _, hd, _⟩ := merge_in_filters_preserves
        { m.storeSlots a with
          num_active_builders := 0
          bloom_filter_descriptors := a.bloom_filter_descriptors }
      rw [hd]
      exact hrem
    rw [merge_bloom_filters_limit_remote _ l hdescs]
  · have hpre' : ({ m with limit := l } :
        PartialRuntimeFilterMerger).num_active_builders ≠ 1 := hpre
    rw [add_partial_filters_not_last m a hpre, add_partial_filters_not_last _ a hpre']
    rfl

theorem runCalls_limit (calls : List PartialFilterArgs) :
    ∀ (m : PartialRuntimeFilterMerger) (l : Nat),
      (∀ a ∈ calls, ∀ d ∈ a.bloom_filter_descriptors, d.has_remote_targets = true) →
      PartialRuntimeFilterMerger.runCalls { m with limit := l } calls =
        ((PartialRuntimeFilterMerger.runCalls m calls).1,
          { (PartialRuntimeFilterMerger.runCalls m calls).2 with limit := l }) := by
  induction calls with
  | nil => intro m l _; rfl
  | cons a as ih =>
    intro m l hrem
    have hA := add_partial_filters_limit m l a (hrem a (List.mem_cons_self a as))
    have h0 : (PartialRuntimeFilterMerger.add_partial_filters { m with limit := l } a).1 =
        (PartialRuntimeFilterMerger.add_partial_filters m a).1 := by rw [hA]
    have h1 : (PartialRuntimeFilterMerger.add_partial_filters { m with limit := l } a).2 =
        { (PartialRuntimeFilterMerger.add_partial_filters m a).2 with limit := l } := by
      rw [hA]
    rw [runCalls_cons, runCalls_cons, h0, h1,
      ih (PartialRuntimeFilterMerger.add_partial_filters m a).2 l
        (fun a' ha' => hrem a' (List.mem_cons_of_mem a ha'))]

/-- C9: two mergers that differ only in the constructor's `limit` behave
identically on identical call sequences except possibly for bloom-filter
construction: all returned values agree, the merged in-filter slots agree
(the IN-merge threshold is the hard-coded 1024, not `limit`), and when every
descriptor has remote targets the final states agree entirely apart from the
stored `limit` itself. -/
theorem limit_noninterference (l1 l2 N : Nat) (calls : List PartialFilterArgs) :
    (PartialRuntimeFilterMerger.runCalls
      (PartialRuntimeFilterMerger.construct l1 N) calls).1 =
      (PartialRuntimeFilterMerger.runCalls
        (PartialRuntimeFilterMerger.construct l2 N) calls).1 ∧
    ((PartialRuntimeFilterMerger.runCalls
      (PartialRuntimeFilterMerger.construct l1 N) calls).2).partial_in_filters =
      ((PartialRuntimeFilterMerger.runCalls
        (PartialRuntimeFilterMerger.construct l2 N) calls).2).partial_in_filters ∧
    ((PartialRuntimeFilterMerger.runCalls
      (PartialRuntimeFilterMerger.construct l1 N) calls).2).ht_row_counts =
      ((PartialRuntimeFilterMerger.runCalls
        (PartialRuntimeFilterMerger.construct l2 N) calls).2).ht_row_counts ∧
    ((PartialRuntimeFilterMerger.runCalls
      (PartialRuntimeFilterMerger.construct l1 N) calls).2).get_total_in_filters =
      ((PartialRuntimeFilterMerger.runCalls
        (PartialRuntimeFilterMerger.construct l2 N) calls).2).get_total_in_filters ∧
    ((∀ a ∈ calls, ∀ d ∈ a.bloom_filter_descriptors, d.has_remote_targets = true) →
      (PartialRuntimeFilterMerger.runCalls
        (PartialRuntimeFilterMerger.construct l2 N) calls).2 =
        { (PartialRuntimeFilterMerger.runCalls
            (PartialRuntimeFilterMerger.construct l1 N) calls).2 with limit := l2 }) := by
  obtain ⟨f0, f1, f2, f3, f4⟩ := runCalls_eqv calls
    (PartialRuntimeFilterMerger.construct l1 N)
    (PartialRuntimeFilterMerger.construct l2 N) rfl rfl rfl rfl
  refine ⟨f0, f3, f2, ?_, ?_⟩
  · show ((PartialRuntimeFilterMerger.runCalls
      (PartialRuntimeFilterMerger.construct l1 N) calls).2).partial_in_filters.getD 0 [] = _
    rw [f3]
    rfl
  · intro hrem
    have hc : (PartialRuntimeFilterMerger.construct l2 N) =
        { PartialRuntimeFilterMerger.construct l1 N with limit := l2 } := rfl
    rw [hc, runCalls_limit calls (PartialRuntimeFilterMerger.construct l1 N) l2 hrem]

/-- Witness for C9 at concrete limits 3 and 9000 with the two sample calls. -/
theorem limit_noninterference_witness :
    (PartialRuntimeFilterMerger.runCalls
      (PartialRuntimeFilterMerger.construct 3 2) [sampleCallA, sampleCallB]).1 =
      (PartialRuntimeFilterMerger.runCalls
        (PartialRuntimeFilterMerger.construct 9000 2) [sampleCallA, sampleCallB]).1 ∧
    ((PartialRuntimeFilterMerger.runCalls
      (PartialRuntimeFilterMerger.construct 3 2) [sampleCallA, sampleCallB]).2).partial_in_filters =
      ((PartialRuntimeFilterMerger.runCalls
        (PartialRuntimeFilterMerger.construct 9000 2) [sampleCallA, sampleCallB]).2).partial_in_filters ∧
    ((PartialRuntimeFilterMerger.runCalls
      (PartialRuntimeFilterMerger.construct 3 2) [sampleCallA, sampleCallB]).2).ht_row_counts =
      ((PartialRuntimeFilterMerger.runCalls
        (PartialRuntimeFilterMerger.construct 9000 2) [sampleCallA, sampleCallB]).2).ht_row_counts ∧
    ((PartialRuntimeFilterMerger.runCalls
      (PartialRuntimeFilterMerger.construct 3 2) [sampleCallA, sampleCallB]).2).get_total_in_filters =
      ((PartialRuntimeFilterMerger.runCalls
        (PartialRuntimeFilterMerger.construct 9000 2) [sampleCallA, sampleCallB]).2).get_total_in_filters := by
  obtain ⟨a, b, c, d, _⟩ := limit_noninterference 3 9000 2 [sampleCallA, sampleCallB]
  exact ⟨a, b, c, d⟩

/-! ## C6: merge_bloom_filters -/

/-- C6: with at least one builder slot, `merge_bloom_filters` succeeds, uses
`row_count` equal to the sum of every builder's hash-table row count (empty
builders contribute 0), maps the install step over the descriptors before
the builders' columns are filled in, and the install step marks each
descriptor pipeline-originated, builds nothing without a consumer, builds
nothing for a local-only descriptor when `row_count` exceeds `limit`, and
otherwise installs a bloom filter initialised to `row_count` with the
descriptor's join mode. -/
theorem merge_bloom_filters_install (m : PartialRuntimeFilterMerger)
    (hne : m.partial_bloom_filter_build_params ≠ []) :
    (PartialRuntimeFilterMerger.merge_bloom_filters m).1 = .ok () ∧
    m.ht_row_counts.foldl (fun acc c => acc + c) 0 = m.ht_row_counts.sum ∧
    ((PartialRuntimeFilterMerger.merge_bloom_filters m).2).bloom_filter_descriptors =
      m.partial_bloom_filter_build_params.foldl
        PartialRuntimeFilterMerger.fillBloomFiltersWith
        (m.bloom_filter_descriptors.map
          (PartialRuntimeFilterMerger.installBloomFilter m.limit
            (m.ht_row_counts.foldl (fun acc c => acc + c) 0))) ∧
    (∀ d : RuntimeFilterBuildDescriptor,
      (PartialRuntimeFilterMerger.installBloomFilter m.limit
        (m.ht_row_counts.foldl (fun acc c => acc + c) 0) d).is_pipeline = true ∧
      (d.has_consumer = false →
        (PartialRuntimeFilterMerger.installBloomFilter m.limit
          (m.ht_row_counts.foldl (fun acc c => acc + c) 0) d).runtime_filter =
          d.runtime_filter) ∧
      (d.has_consumer = true → d.has_remote_targets = false →
        m.limit < m.ht_row_counts.foldl (fun acc c => acc + c) 0 →
        (PartialRuntimeFilterMerger.installBloomFilter m.limit
          (m.ht_row_counts.foldl (fun acc c => acc + c) 0) d).runtime_filter =
          d.runtime_filter) ∧
      (d.has_consumer = true →
        (d.has_remote_targets = true ∨
          m.ht_row_counts.foldl (fun acc c => acc + c) 0 ≤ m.limit) →
        (PartialRuntimeFilterMerger.installBloomFilter m.limit
          (m.ht_row_counts.foldl (fun acc c => acc + c) 0) d).runtime_filter =
          some { build_type := d.build_expr_type
                 bloom_row_count := m.ht_row_counts.foldl (fun acc c => acc + c) 0
                 join_mode := d.join_mode
                 filled := [] })) := by
  have hemp : m.partial_bloom_filter_build_params.isEmpty = false := by
    cases hp : m.partial_bloom_filter_build_params with
    | nil => exact absurd hp hne
    | cons x xs => rfl
  refine ⟨merge_bloom_filters_status m, List.sum_eq_foldl.symm, ?_, ?_⟩
  · simp [PartialRuntimeFilterMerger.merge_bloom_filters, hemp]
  · intro d
    refine ⟨?_, ?_, ?_, ?_⟩
    · by_cases hcons : d.has_consumer
      · by_cases hrem : d.has_remote_targets <;>
          by_cases hlim : m.limit < m.ht_row_counts.foldl (fun acc c => acc + c) 0 <;>
          simp [PartialRuntimeFilterMerger.installBloomFilter, create_runtime_bloom_filter,
            hcons, hrem, hlim]
      · simp [PartialRuntimeFilterMerger.installBloomFilter, hcons]
    · intro hcons
      simp [PartialRuntimeFilterMerger.installBloomFilter, hcons]
    · intro hcons hrem hlim
      simp [PartialRuntimeFilterMerger.installBloomFilter, hcons, hrem, hlim]
    · intro hcons hor
      rcases hor with hrem | hlim
      · simp [PartialRuntimeFilterMerger.installBloomFilter, create_runtime_bloom_filter,
          hcons, hrem, JoinRuntimeFilter.init, JoinRuntimeFilter.set_join_mode]
      · by_cases hrem : d.has_remote_targets <;>
          simp [PartialRuntimeFilterMerger.installBloomFilter, create_runtime_bloom_filter,
            hcons, hrem, Nat.not_lt.mpr hlim, JoinRuntimeFilter.init,
            JoinRuntimeFilter.set_join_mode]

/-- Witness for C6 at a concrete two-builder merger with one remote-target
descriptor. -/
theorem merge_bloom_filters_install_witness :
    sampleMergerBloom.partial_bloom_filter_build_params ≠ [] ∧
    (PartialRuntimeFilterMerger.merge_bloom_filters sampleMergerBloom).1 = .ok () ∧
    ((PartialRuntimeFilterMerger.merge_bloom_filters
        sampleMergerBloom).2).bloom_filter_descriptors =
      sampleMergerBloom.partial_bloom_filter_build_params.foldl
        PartialRuntimeFilterMerger.fillBloomFiltersWith
        (sampleMergerBloom.bloom_filter_descriptors.map
          (PartialRuntimeFilterMerger.installBloomFilter sampleMergerBloom.limit
            (sampleMergerBloom.ht_row_counts.foldl (fun acc c => acc + c) 0))) :=
  ⟨by decide,
    (merge_bloom_filters_install sampleMergerBloom (by decide)).1,
    (merge_bloom_filters_install sampleMergerBloom (by decide)).2.2.1⟩

/-! ## C5: the positional union computed by the in-filter merge -/

theorem union_keys_mem (a b : InFilterPred) (k : Int) :
    k ∈ (a.union b).keys ↔ k ∈ a.keys ∨ k ∈ b.keys := by
  simp only [InFilterPred.union, List.mem_append, List.mem_filter, decide_eq_true_eq]
  tauto

theorem union_merge_fails (a b : InFilterPred) :
    (a.union b).merge_fails = a.merge_fails := rfl

theorem noFail_some {l : List (Option InFilterPred)} (h : noFail l = true)
    {p : InFilterPred} (hp : some p ∈ l) : p.merge_fails = false := by
  simp only [noFail, List.all_eq_true] at h
  have := h _ hp
  simpa using this

theorem noFail_cons_of {t : Option InFilterPred} {ts : List (Option InFilterPred)}
    (h : noFail (t :: ts) = true) : noFail ts = true := by
  simp only [noFail, List.all_cons, Bool.and_eq_true] at h ⊢
  exact h.2

theorem mergeInto_ok (ts : List (Option InFilterPred)) :
    ∀ os : List (Option InFilterPred), ts.length = os.length →
      noFail ts = true → noFail os = true →
      ∃ t, PartialRuntimeFilterMerger.mergeInto ts os = (.ok (), t) ∧
        t.length = ts.length ∧ noFail t = true ∧
        ∀ j, entryAt t j = mergedEntry (entryAt ts j) (entryAt os j) := by
  induction ts with
  | nil =>
    intro os _ _ _
    refine ⟨[], ?_, rfl, rfl, fun j => ?_⟩
    · simp [PartialRuntimeFilterMerger.mergeInto]
    · simp [entryAt, mergedEntry]
  | cons t ts ih =>
    intro os hlen hnf1 hnf2
    cases os with
    | nil => simp at hlen
    | cons o os =>
      simp only [List.length_cons, Nat.succ.injEq] at hlen
      obtain ⟨t', ht', hlen', hnf', hent'⟩ :=
        ih os hlen (noFail_cons_of hnf1) (noFail_cons_of hnf2)
      cases t with
      | none =>
        refine ⟨none :: t', ?_, by simp [hlen'], ?_, fun j => ?_⟩
        · show ((PartialRuntimeFilterMerger.mergeInto ts os).1,
            none :: (PartialRuntimeFilterMerger.mergeInto ts os).2) = _
          rw [ht']
        · simpa [noFail] using hnf'
        · cases j with
          | zero => simp [entryAt, mergedEntry]
          | succ j => simpa [entryAt, List.getD_cons_succ] using hent' j
      | some a =>
        cases o with
        | none =>
          refine ⟨none :: t', ?_, by simp [hlen'], ?_, fun j => ?_⟩
          · show ((PartialRuntimeFilterMerger.mergeInto ts os).1,
              none :: (PartialRuntimeFilterMerger.mergeInto ts os).2) = _
            rw [ht']
          · simpa [noFail] using hnf'
          · cases j with
            | zero => simp [entryAt, mergedEntry]
            | succ j => simpa [entryAt, List.getD_cons_succ] using hent' j
        | some b =>
          have ha : a.merge_fails = false := noFail_some hnf1 (List.mem_cons_self _ _)
          have hb : b.merge_fails = false := noFail_some hnf2 (List.mem_cons_self _ _)
          have hmerge : a.merge b = .ok (a.union b) := by
            simp [InFilterPred.merge, ha, hb]
          refine ⟨some (a.union b) :: t', ?_, by simp [hlen'], ?_, fun j => ?_⟩
          · show (match a.merge b with
              | .error e => (Except.error e, some a :: ts)
              | .ok c => ((PartialRuntimeFilterMerger.mergeInto ts os).1,
                  some c :: (PartialRuntimeFilterMerger.mergeInto ts os).2)) = _
            rw [hmerge, ht']
          · have : (a.union b).merge_fails = false := by rw [union_merge_fails]; exact ha
            simpa [noFail, this] using hnf'
          · cases j with
            | zero => simp [entryAt, mergedEntry]
            | succ j => simpa [entryAt, List.getD_cons_succ] using hent' j

theorem mergeTotal_ok (rest : List (List (Option InFilterPred))) :
    ∀ total : List (Option InFilterPred), noFail total = true →
      (∀ o ∈ rest, noFail o = true) → (∀ o ∈ rest, o.length = total.length) →
      ∃ t, PartialRuntimeFilterMerger.mergeTotal total rest = (.ok (), t) ∧
        t.length = total.length ∧ noFail t = true ∧
        ∀ j, entryAt t j =
          rest.foldl (fun e o => mergedEntry e (entryAt o j)) (entryAt total j) := by
  induction rest with
  | nil =>
    intro total hnf _ _
    exact ⟨total, rfl, rfl, hnf, fun j => rfl⟩
  | cons o os ih =>
    intro total hnf hnfs hlens
    obtain ⟨t1, ht1, hlen1, hnf1, hent1⟩ := mergeInto_ok total o
      (hlens o (List.mem_cons_self o os)).symm hnf (hnfs o (List.mem_cons_self o os))
    obtain ⟨t, ht, hlen2, hnf2, hent2⟩ := ih t1 hnf1
      (fun o' ho' => hnfs o' (List.mem_cons_of_mem o ho'))
      (fun o' ho' => by rw [hlen1]; exact hlens o' (List.mem_cons_of_mem o ho'))
    refine ⟨t, ?_, by rw [hlen2, hlen1], hnf2, fun j => ?_⟩
    · show (match PartialRuntimeFilterMerger.mergeInto total o with
        | (.error e, t) => (Except.error e, t)
        | (.ok _, t) => PartialRuntimeFilterMerger.mergeTotal t os) = _
      rw [ht1]
      exact ht
    · rw [List.foldl_cons, hent2, hent1 j]

theorem entryUnion_singleton (b : List (Option InFilterPred)) (j : Nat) :
    EntryUnion [b] j (entryAt b j) := by
  constructor
  · constructor
    · intro h
      exact ⟨b, List.mem_singleton.mpr rfl, h⟩
    · rintro ⟨b', hb', h⟩
      rw [List.mem_singleton] at hb'
      subst hb'
      exact h
  · intro p hp k
    constructor
    · intro hk
      exact ⟨b, List.mem_singleton.mpr rfl, p, hp, hk⟩
    · rintro ⟨b', hb', q, hq, hk⟩
      rw [List.mem_singleton] at hb'
      subst hb'
      rw [hp] at hq
      injection hq with hq
      subst hq
      exact hk

theorem entryUnion_step (bs : List (List (Option InFilterPred)))
    (o : List (Option InFilterPred)) (j : Nat) (e : Option InFilterPred)
    (h : EntryUnion bs j e) : EntryUnion (bs ++ [o]) j (mergedEntry e (entryAt o j)) := by
  obtain ⟨hnone, hkeys⟩ := h
  cases he : e with
  | none =>
    rw [show mergedEntry none (entryAt o j) = none from by cases entryAt o j <;> rfl]
    constructor
    · constructor
      · intro _
        obtain ⟨b, hb, hbe⟩ := hnone.mp he
        exact ⟨b, List.mem_append_left _ hb, hbe⟩
      · intro _
        rfl
    · intro p hp
      exact absurd hp.symm (Option.some_ne_none p)
  | some p =>
    cases ho : entryAt o j with
    | none =>
      rw [show mergedEntry (some p) none = none from rfl]
      constructor
      · constructor
        · intro _
          exact ⟨o, List.mem_append_right _ (List.mem_singleton.mpr rfl), ho⟩
        · intro _
          rfl
      · intro q hq
        exact absurd hq.symm (Option.some_ne_none q)
    | some q =>
      rw [show mergedEntry (some p) (some q) = some (p.union q) from rfl]
      constructor
      · constructor
        · intro hcontra
          exact absurd hcontra (Option.some_ne_none _)
        · rintro ⟨b', hb', hbe⟩
          rcases List.mem_append.mp hb' with hbl | hbr
          · have : e = none := hnone.mpr ⟨b', hbl, hbe⟩
            rw [he] at this
            exact absurd this (Option.some_ne_none p)
          · rw [List.mem_singleton] at hbr
            subst hbr
            rw [ho] at hbe
            exact absurd hbe (Option.some_ne_none q)
      · intro r hr k
        injection hr with hr
        subst hr
        rw [union_keys_mem]
        constructor
        · intro hk
          rcases hk with hk | hk
          · obtain ⟨b', hb', q', hq', hk'⟩ := (hkeys p he k).mp hk
            exact ⟨b', List.mem_append_left _ hb', q', hq', hk'⟩
          · exact ⟨o, List.mem_append_right _ (List.mem_singleton.mpr rfl), q, ho, hk⟩
        · rintro ⟨b', hb', q', hq', hk'⟩
          rcases List.mem_append.mp hb' with hbl | hbr
          · exact Or.inl ((hkeys p he k).mpr ⟨b', hbl, q', hq', hk'⟩)
          · rw [List.mem_singleton] at hbr
            subst hbr
            rw [ho] at hq'
            injection hq' with hq'
            subst hq'
            exact Or.inr hk'

theorem entryUnion_foldl (os : List (List (Option InFilterPred))) (j : Nat) :
    ∀ (bs : List (List (Option InFilterPred))) (e : Option InFilterPred),
      EntryUnion bs j e →
      EntryUnion (bs ++ os) j
        (os.foldl (fun e o => mergedEntry e (entryAt o j)) e) := by
  induction os with
  | nil => intro bs e h; simpa using h
  | cons o os ih =>
    intro bs e h
    rw [List.foldl_cons]
    have := ih (bs ++ [o]) (mergedEntry e (entryAt o j)) (entryUnion_step bs o j e h)
    simpa [List.append_assoc] using this

theorem squeezeInFilters_ok (counts : List Nat) :
    ∀ fss : List (List (Option InFilterPred)), counts.length = fss.length →
      (∀ pr ∈ counts.zip fss, 0 < pr.1 → pr.2 ≠ []) →
      ∃ num, PartialRuntimeFilterMerger.squeezeInFilters counts fss =
        some (retainedInFilters counts fss, num) ∧ (num = 0 ∨ num ∈ counts) := by
  induction counts with
  | nil =>
    intro fss _ _
    exact ⟨0, by simp [PartialRuntimeFilterMerger.squeezeInFilters, retainedInFilters], Or.inl rfl⟩
  | cons c cs ih =>
    intro fss hlen hok
    cases fss with
    | nil => simp at hlen
    | cons f fs =>
      simp only [List.length_cons, Nat.succ.injEq] at hlen
      have hok' : ∀ pr ∈ cs.zip fs, 0 < pr.1 → pr.2 ≠ [] := by
        intro pr hpr
        exact hok pr (by rw [List.zip_cons_cons]; exact List.mem_cons_of_mem _ hpr)
      obtain ⟨num, hsq, hnum⟩ := ih fs hlen hok'
      by_cases hc : c = 0
      · refine ⟨num, ?_, ?_⟩
        · rw [show retainedInFilters (c :: cs) (f :: fs) = retainedInFilters cs fs from by
            simp [retainedInFilters, List.zip_cons_cons, hc]]
          simpa [PartialRuntimeFilterMerger.squeezeInFilters, hc] using hsq
        · rcases hnum with h | h
          · exact Or.inl h
          · exact Or.inr (List.mem_cons_of_mem c h)
      · have hf : f ≠ [] := hok (c, f) (by rw [List.zip_cons_cons]; exact List.mem_cons_self _ _)
          (by omega)
        have hfe : f.isEmpty = false := by
          cases f with
          | nil => exact absurd rfl hf
          | cons x xs => rfl
        refine ⟨max c num, ?_, ?_⟩
        · rw [show retainedInFilters (c :: cs) (f :: fs) = f :: retainedInFilters cs fs from by
            simp [retainedInFilters, List.zip_cons_cons, hc, Nat.pos_of_ne_zero hc]]
          simp [PartialRuntimeFilterMerger.squeezeInFilters, hc, hfe, hsq]
        · rcases max_choice c num with h | h
          · rw [h]
            exact Or.inr (List.mem_cons_self c cs)
          · rw [h]
            rcases hnum with h0 | hmem
            · exact Or.inl h0
            · exact Or.inr (List.mem_cons_of_mem c hmem)

theorem retainedInFilters_ne_nil (counts : List Nat)
    (fss : List (List (Option InFilterPred)))
    (h : ∃ pr ∈ counts.zip fss, 0 < pr.1) :
    retainedInFilters counts fss ≠ [] := by
  obtain ⟨pr, hm, hpos⟩ := h
  have hmem : pr ∈ (counts.zip fss).filter (fun pr => decide (0 < pr.1)) :=
    List.mem_filter.mpr ⟨hm, by simpa using hpos⟩
  intro hnil
  rw [retainedInFilters, List.map_eq_nil_iff] at hnil
  rw [hnil] at hmem
  exact absurd hmem (List.not_mem_nil pr)

/-- C5 (amended): when every builder with a non-empty hash table contributes
a non-empty IN-filter list, row counts stay within 1024, some hash table is
non-empty, the retained (non-empty-hash-table) builders' lists are
positionally aligned and none of their predicates fails to merge, the merge
succeeds and slot 0 becomes the positional union over the retained builders:
at each position the merged predicate holds exactly the keys present in some
retained builder's predicate there, positions where any retained builder's
entry is null are nulled and then dropped from the result. -/
theorem merge_in_filters_positional_union (m : PartialRuntimeFilterMerger) (len : Nat)
    (hlen : m.ht_row_counts.length = m.partial_in_filters.length)
    (hnonempty : ∀ pr ∈ m.ht_row_counts.zip m.partial_in_filters, 0 < pr.1 → pr.2 ≠ [])
    (hmax : ∀ c ∈ m.ht_row_counts, c ≤ 1024)
    (hexists : ∃ pr ∈ m.ht_row_counts.zip m.partial_in_filters, 0 < pr.1)
    (halign : ∀ b ∈ retainedInFilters m.ht_row_counts m.partial_in_filters, b.length = len)
    (hnofail : ∀ b ∈ retainedInFilters m.ht_row_counts m.partial_in_filters,
      noFail b = true) :
    ∃ t, (PartialRuntimeFilterMerger.merge_in_filters m).1 = .ok () ∧
      ((PartialRuntimeFilterMerger.merge_in_filters m).2).get_total_in_filters =
        t.filter Option.isSome ∧
      t.length = len ∧
      ∀ j, EntryUnion (retainedInFilters m.ht_row_counts m.partial_in_filters) j
        (entryAt t j) := by
  obtain ⟨num, hsq, hnumsrc⟩ := squeezeInFilters_ok m.ht_row_counts m.partial_in_filters
    hlen hnonempty
  have hnum : ¬(1024 < num) := by
    rcases hnumsrc with h | h
    · omega
    · have := hmax num h
      omega
  have hne := retainedInFilters_ne_nil m.ht_row_counts m.partial_in_filters hexists
  obtain ⟨total, rest, hr⟩ := List.exists_cons_of_ne_nil hne
  have htot_mem : total ∈ retainedInFilters m.ht_row_counts m.partial_in_filters := by
    rw [hr]
    exact List.mem_cons_self _ _
  have htot_len : total.length = len := halign total htot_mem
  obtain ⟨t, hmt, hlen_t, hnf_t, hent⟩ := mergeTotal_ok rest total (hnofail total htot_mem)
    (fun o ho => hnofail o (by rw [hr]; exact List.mem_cons_of_mem _ ho))
    (fun o ho => by
      rw [htot_len]
      exact halign o (by rw [hr]; exact List.mem_cons_of_mem _ ho))
  have hMI : PartialRuntimeFilterMerger.merge_in_filters m =
      (.ok (), { m with partial_in_filters := t.filter Option.isSome :: rest }) := by
    unfold PartialRuntimeFilterMerger.merge_in_filters
    rw [hsq, hr]
    simp only [hnum, if_false]
    rw [hmt]
  refine ⟨t, by rw [hMI], by rw [hMI]; rfl, by rw [hlen_t, htot_len], fun j => ?_⟩
  rw [hr]
  have := entryUnion_foldl rest j [total] (entryAt total j) (entryUnion_singleton total j)
  rw [hent j]
  simpa using this

/-- C5 fails as stated: a builder with an empty hash table (row count 0) is
squeezed out, so its keys are dropped even though the input satisfies the
claim's side conditions.  With row counts (5, 0) and IN-lists
([{1,2}], [{9}]), key 9 appears in builder 1's predicate at position 0 but
not in the merged output. -/
theorem merge_in_filters_drops_zero_count_keys :
    (∀ pr ∈ sampleMergerZeroCount.ht_row_counts.zip
        sampleMergerZeroCount.partial_in_filters, 0 < pr.1 → pr.2 ≠ []) ∧
    (∀ c ∈ sampleMergerZeroCount.ht_row_counts, c ≤ 1024) ∧
    (PartialRuntimeFilterMerger.merge_in_filters sampleMergerZeroCount).1 = .ok () ∧
    ((PartialRuntimeFilterMerger.merge_in_filters
        sampleMergerZeroCount).2).get_total_in_filters = [some samplePred12] ∧
    entryAt (sampleMergerZeroCount.partial_in_filters.getD 1 []) 0 = some samplePred9 ∧
    (9 : Int) ∈ samplePred9.keys ∧
    (9 : Int) ∉ samplePred12.keys :=
  ⟨by decide, by decide, rfl, rfl, rfl, by decide, by decide⟩

/-- Witness for C5's amended theorem at the spec's S1 scenario: row counts
(10, 0, 20), IN-lists ([{1,2,3}], [], [{3,4,5}]). -/
theorem merge_in_filters_positional_union_witness :
    (sampleMergerS1.ht_row_counts.length = sampleMergerS1.partial_in_filters.length ∧
      (∀ pr ∈ sampleMergerS1.ht_row_counts.zip sampleMergerS1.partial_in_filters,
        0 < pr.1 → pr.2 ≠ []) ∧
      (∀ c ∈ sampleMergerS1.ht_row_counts, c ≤ 1024) ∧
      (∃ pr ∈ sampleMergerS1.ht_row_counts.zip sampleMergerS1.partial_in_filters,
        0 < pr.1) ∧
      (∀ b ∈ retainedInFilters sampleMergerS1.ht_row_counts
        sampleMergerS1.partial_in_filters, b.length = 1) ∧
      (∀ b ∈ retainedInFilters sampleMergerS1.ht_row_counts
        sampleMergerS1.partial_in_filters, noFail b = true)) ∧
    ∃ t, (PartialRuntimeFilterMerger.merge_in_filters sampleMergerS1).1 = .ok () ∧
      ((PartialRuntimeFilterMerger.merge_in_filters
        sampleMergerS1).2).get_total_in_filters = t.filter Option.isSome ∧
      t.length = 1 ∧
      ∀ j, EntryUnion (retainedInFilters sampleMergerS1.ht_row_counts
        sampleMergerS1.partial_in_filters) j (entryAt t j) :=
  ⟨⟨rfl, by decide, by decide, by decide, by decide, by decide⟩,
    merge_in_filters_positional_union sampleMergerS1 1 rfl (by decide) (by decide)
      (by decide) (by decide) (by decide)⟩

end StarRocks
